import Mathlib

/-!
Verification of the geo-aggregation pipeline of the planetary-society/dashboards
repository.  JavaScript strings are modelled as `List Char` (ASCII fragment of
the Unicode case mappings, which covers every character the pipeline's tables
and sentinels use), JavaScript numbers as exact extended rationals
(`JsNum` below: NaN, the two infinities, or a rational), and rows as records
with the columns the dashboard reads.  Each definition is a direct translation
of the function of the same name in `docs/shared/js/utils.js`,
`docs/cancellations` (the `CancellationsDashboard` class), the
`ChoroplethMap` component, or the Python chunk of the Quarto dashboard.
-/

/-- JavaScript strings, modelled as lists of characters. -/
abbrev Str := List Char

/-- The ASCII whitespace characters recognised by `\s`, `String.trim` and
`parseFloat`/`parseInt` (the Unicode space characters are irrelevant to the
pipeline's data). -/
def jsWs (c : Char) : Bool :=
  c = ' ' || c = '\t' || c = '\n' || c = '\r' || c = '\x0b' || c = '\x0c'

/-- `String.prototype.trim`: drop leading and trailing whitespace. -/
def jsTrim (l : Str) : Str :=
  ((l.dropWhile jsWs).reverse.dropWhile jsWs).reverse

/-- `String.prototype.split(sep)` for a one-character separator. -/
def splitChar (sep : Char) : Str → List Str
  | [] => [[]]
  | c :: rest =>
    if c = sep then [] :: splitChar sep rest
    else
      match splitChar sep rest with
      | [] => [[c]]
      | p :: ps => (c :: p) :: ps

/-- ASCII uppercase conversion of one character (`String.prototype.toUpperCase`
restricted to ASCII). -/
def asciiUpper (c : Char) : Char :=
  if 97 ≤ c.toNat ∧ c.toNat ≤ 122 then Char.ofNat (c.toNat - 32) else c

/-- ASCII lowercase conversion of one character (`String.prototype.toLowerCase`
restricted to ASCII). -/
def asciiLower (c : Char) : Char :=
  if 65 ≤ c.toNat ∧ c.toNat ≤ 90 then Char.ofNat (c.toNat + 32) else c

/-- Decimal digit test. -/
def isDigitC (c : Char) : Bool := 48 ≤ c.toNat && c.toNat ≤ 57

/-- Value of a decimal digit character. -/
def digitVal (c : Char) : Nat := c.toNat - 48

/-- Value of a string of decimal digits. -/
def digitsToNat (l : Str) : Nat := l.foldl (fun a c => 10 * a + digitVal c) 0

/-- Decimal digits of a natural number (via `Nat.repr`). -/
def natDigits (n : Nat) : Str := (Nat.repr n).data

/-- `String.prototype.padStart(n, c)`. -/
def padStart (l : Str) (n : Nat) (c : Char) : Str :=
  List.replicate (n - l.length) c ++ l

/-- `Number.prototype.toString` for the integers produced by `parseInt`. -/
def intToStr (i : ℤ) : Str :=
  if i < 0 then '-' :: natDigits i.natAbs else natDigits i.toNat

/-- `parseInt(s, 10)`: skip leading whitespace, read an optional sign and then
the longest prefix of decimal digits; `NaN` (here `none`) when no digit
follows. -/
def jsParseInt (l : Str) : Option ℤ :=
  let t := l.dropWhile jsWs
  match t with
  | '+' :: r =>
    let ds := r.takeWhile isDigitC
    if ds = [] then none else some (digitsToNat ds : ℤ)
  | '-' :: r =>
    let ds := r.takeWhile isDigitC
    if ds = [] then none else some (-(digitsToNat ds : ℤ))
  | _ =>
    let ds := t.takeWhile isDigitC
    if ds = [] then none else some (digitsToNat ds : ℤ)

/-- `STATE_FIPS_MAP` of `docs/shared/js/constants.js` (identical to the
`STATE_FIPS_MAP` dictionary of the Quarto dashboard's Python chunk). -/
def STATE_FIPS_MAP : List (Str × Str) :=
  [("AL".data, "01".data), ("AK".data, "02".data), ("AZ".data, "04".data),
   ("AR".data, "05".data), ("CA".data, "06".data), ("CO".data, "08".data),
   ("CT".data, "09".data), ("DE".data, "10".data), ("DC".data, "11".data),
   ("FL".data, "12".data), ("GA".data, "13".data), ("HI".data, "15".data),
   ("ID".data, "16".data), ("IL".data, "17".data), ("IN".data, "18".data),
   ("IA".data, "19".data), ("KS".data, "20".data), ("KY".data, "21".data),
   ("LA".data, "22".data), ("ME".data, "23".data), ("MD".data, "24".data),
   ("MA".data, "25".data), ("MI".data, "26".data), ("MN".data, "27".data),
   ("MS".data, "28".data), ("MO".data, "29".data), ("MT".data, "30".data),
   ("NE".data, "31".data), ("NV".data, "32".data), ("NH".data, "33".data),
   ("NJ".data, "34".data), ("NM".data, "35".data), ("NY".data, "36".data),
   ("NC".data, "37".data), ("ND".data, "38".data), ("OH".data, "39".data),
   ("OK".data, "40".data), ("OR".data, "41".data), ("PA".data, "42".data),
   ("RI".data, "44".data), ("SC".data, "45".data), ("SD".data, "46".data),
   ("TN".data, "47".data), ("TX".data, "48".data), ("UT".data, "49".data),
   ("VT".data, "50".data), ("VA".data, "51".data), ("WA".data, "53".data),
   ("WV".data, "54".data), ("WI".data, "55".data), ("WY".data, "56".data),
   ("AS".data, "60".data), ("GU".data, "66".data), ("MP".data, "69".data),
   ("PR".data, "72".data), ("VI".data, "78".data)]

/-- Lookup `STATE_FIPS_MAP[abbr]`, `none` for abbreviations not in the table
(the falsy-lookup guard `if (!stateFips) return null`). -/
def lookupFips (k : Str) : Option Str :=
  (STATE_FIPS_MAP.find? (fun p => decide (p.1 = k))).map (fun p => p.2)

/-- `getGeoidFromDistrict` of `docs/shared/js/utils.js`. -/
def getGeoidFromDistrict (districtStr : Str) : Option Str :=
  if districtStr = [] ∨ ¬ '-' ∈ districtStr then none
  else
    let parts := splitChar '-' districtStr
    if parts.length ≠ 2 then none
    else
      let stateAbbr := (parts.getD 0 []).map asciiUpper
      let districtNum := (parts.getD 1 []).map asciiUpper
      match lookupFips stateAbbr with
      | none => none
      | some stateFips =>
        if districtNum = "ZZ".data ∨ districtNum = "00".data then
          some (stateFips ++ districtNum)
        else
          match jsParseInt districtNum with
          | none => none
          | some i => some (stateFips ++ padStart (intToStr i) 2 '0')

example : getGeoidFromDistrict "CA-37".data = some "0637".data := by decide
example : getGeoidFromDistrict "CA-0".data = some "0600".data := by decide
example : getGeoidFromDistrict "ca-37".data = some "0637".data := by decide
example : getGeoidFromDistrict "ZZ-ZZ".data = none := by decide
example : getGeoidFromDistrict "CA-100".data = some "06100".data := by decide
example : getGeoidFromDistrict "CA-3x".data = some "0603".data := by decide
example : getGeoidFromDistrict "CA37".data = none := by decide
example : getGeoidFromDistrict "CA-3-4".data = none := by decide
example : getGeoidFromDistrict "WY-ZZ".data = some "56ZZ".data := by decide

/-- JavaScript (IEEE-754 double) numbers, idealised: NaN, the two infinities,
or an exact rational.  Rounding of doubles is outside the scope of the claims,
which quantify over exact decimal data. -/
inductive JsNum : Type
  | nan : JsNum
  | posInf : JsNum
  | negInf : JsNum
  | val : ℚ → JsNum
deriving DecidableEq

/-- Addition of JavaScript numbers with the special values of `+` on doubles
but the finite case idealised as exact rational addition. This exact reading
is used only where a sum is carried to the output verbatim; `fp64Add` below
models the finite case faithfully, with binary64 rounding. -/
def jsAdd : JsNum → JsNum → JsNum
  | JsNum.nan, _ => JsNum.nan
  | _, JsNum.nan => JsNum.nan
  | JsNum.posInf, JsNum.negInf => JsNum.nan
  | JsNum.negInf, JsNum.posInf => JsNum.nan
  | JsNum.posInf, _ => JsNum.posInf
  | _, JsNum.posInf => JsNum.posInf
  | JsNum.negInf, _ => JsNum.negInf
  | _, JsNum.negInf => JsNum.negInf
  | JsNum.val a, JsNum.val b => JsNum.val (a + b)

/-- Subtraction of JavaScript numbers (used by the sort comparators). -/
def jsSub : JsNum → JsNum → JsNum
  | JsNum.nan, _ => JsNum.nan
  | _, JsNum.nan => JsNum.nan
  | JsNum.posInf, JsNum.posInf => JsNum.nan
  | JsNum.negInf, JsNum.negInf => JsNum.nan
  | JsNum.posInf, _ => JsNum.posInf
  | JsNum.negInf, _ => JsNum.negInf
  | JsNum.val _, JsNum.posInf => JsNum.negInf
  | JsNum.val _, JsNum.negInf => JsNum.posInf
  | JsNum.val a, JsNum.val b => JsNum.val (a - b)

/-- `n < 0` on JavaScript numbers (false for NaN). -/
def jsNegative : JsNum → Bool
  | JsNum.negInf => true
  | JsNum.val q => q < 0
  | _ => false

/-- `n >= q` against a rational literal (false for NaN). -/
def jsGeQ : JsNum → ℚ → Bool
  | JsNum.posInf, _ => true
  | JsNum.val a, q => q ≤ a
  | _, _ => false

/-- `n > 0` on JavaScript numbers (false for NaN). -/
def jsPositive : JsNum → Bool
  | JsNum.posInf => true
  | JsNum.val q => 0 < q
  | _ => false

/-- Division of a JavaScript number by a positive rational constant. -/
def jsDivQ : JsNum → ℚ → JsNum
  | JsNum.nan, _ => JsNum.nan
  | JsNum.posInf, _ => JsNum.posInf
  | JsNum.negInf, _ => JsNum.negInf
  | JsNum.val a, q => JsNum.val (a / q)

/-- Truthiness of a JavaScript number (`0`, `-0` and NaN are falsy). -/
def jsTruthy : JsNum → Bool
  | JsNum.nan => false
  | JsNum.val q => q ≠ 0
  | _ => true

/-- Leading-prefix test used to recognise the literal `Infinity` in
`parseFloat`. -/
def leadsWith : Str → Str → Bool
  | [], _ => true
  | _ :: _, [] => false
  | p :: ps, c :: cs => p = c && leadsWith ps cs

/-- Exponent part of a `StrDecimalLiteral`: an `e`/`E` followed by an optional
sign and at least one digit; an incomplete exponent is ignored (longest valid
prefix rule of `parseFloat`). -/
def parseExp (rest : Str) : ℤ :=
  match rest with
  | c :: r1 =>
    if c = 'e' ∨ c = 'E' then
      match r1 with
      | '+' :: r2 =>
        let ds := r2.takeWhile isDigitC
        if ds = [] then 0 else (digitsToNat ds : ℤ)
      | '-' :: r2 =>
        let ds := r2.takeWhile isDigitC
        if ds = [] then 0 else -(digitsToNat ds : ℤ)
      | _ =>
        let ds := r1.takeWhile isDigitC
        if ds = [] then 0 else (digitsToNat ds : ℤ)
    else 0
  | [] => 0

/-- Mantissa-and-exponent assembly for `parseFloat`: integer digits, fraction
digits and the remaining input after the fraction. -/
def floatFinish (ints fr rest : Str) (neg : Bool) : JsNum :=
  let mant : ℚ := (digitsToNat ints : ℚ) + (digitsToNat fr : ℚ) / (10 : ℚ) ^ fr.length
  let x : ℚ := mant * (10 : ℚ) ^ parseExp rest
  if neg then JsNum.val (-x) else JsNum.val x

/-- Unsigned part of `parseFloat`: the literal `Infinity`, or decimal digits
with an optional fraction and exponent; NaN when no digit can be read. -/
def parseFloatUnsigned (r : Str) (neg : Bool) : JsNum :=
  if leadsWith "Infinity".data r then (if neg then JsNum.negInf else JsNum.posInf)
  else
    let ints := r.takeWhile isDigitC
    let r1 := r.drop ints.length
    if ints = [] then
      match r1 with
      | '.' :: r2 =>
        let fr := r2.takeWhile isDigitC
        if fr = [] then JsNum.nan
        else floatFinish ints fr (r2.drop fr.length) neg
      | _ => JsNum.nan
    else
      match r1 with
      | '.' :: r2 =>
        let fr := r2.takeWhile isDigitC
        floatFinish ints fr (r2.drop fr.length) neg
      | _ => floatFinish ints [] r1 neg

/-- `parseFloat(s)`: skip leading whitespace, read an optional sign and then
the longest prefix forming a `StrDecimalLiteral`; NaN when none exists. -/
def jsParseFloat (l : Str) : JsNum :=
  let t := l.dropWhile jsWs
  match t with
  | '+' :: r => parseFloatUnsigned r false
  | '-' :: r => parseFloatUnsigned r true
  | _ => parseFloatUnsigned t false

/-- The character class `[$,\s]` removed by the currency cleaners. -/
def currencyJunk (c : Char) : Bool := c = '$' || c = ',' || jsWs c

/-- `parseCurrency` on a string argument: shared by
`docs/shared/js/utils.js` (its string branch) and
`CancellationsDashboard.parseCurrency` (whose inputs are always CSV field
strings; both return null on the empty string).  Strips `[$,\s]` everywhere,
applies `parseFloat`, and maps NaN to null. -/
def parseCurrencyStr (s : Str) : Option JsNum :=
  if s = [] then none
  else
    let cleaned := s.filter (fun c => ¬ currencyJunk c)
    match jsParseFloat cleaned with
    | JsNum.nan => none
    | n => some n

/-- A JavaScript value reaching `formatCurrency`/`parseCurrency`: null (or
undefined), a number, or a string. -/
inductive JsValue : Type
  | nullv : JsValue
  | num : JsNum → JsValue
  | str : Str → JsValue

/-- `parseCurrency` of `docs/shared/js/utils.js` on a general value. -/
def parseCurrency : JsValue → Option JsNum
  | JsValue.nullv => none
  | JsValue.num JsNum.nan => none
  | JsValue.num n => some n
  | JsValue.str s => parseCurrencyStr s

example : parseCurrencyStr "$1,234,567".data = some (JsNum.val 1234567) := by with_unfolding_all rfl
example : parseCurrencyStr "$1,234.00".data = some (JsNum.val 1234) := by with_unfolding_all rfl
example : parseCurrencyStr "".data = none := rfl
example : parseCurrencyStr "N/A".data = none := rfl
example : parseCurrencyStr "12abc".data = some (JsNum.val 12) := by with_unfolding_all rfl
example : parseCurrencyStr "$5".data = some (JsNum.val 5) := by with_unfolding_all rfl

/-- `Number.prototype.toFixed(d)` for a nonnegative finite value: the integer
nearest to `q * 10^d` (ties towards the larger integer), rendered with `d`
fraction digits. -/
def toFixedAbs (q : ℚ) (d : Nat) : Str :=
  let m : Nat := (Int.floor (q * (10 : ℚ) ^ d + 1/2)).toNat
  if d = 0 then natDigits m
  else natDigits (m / 10 ^ d) ++ '.' :: padStart (natDigits (m % 10 ^ d)) d '0'

/-- `Number.prototype.toFixed(d)` on a JavaScript number. -/
def toFixed (n : JsNum) (d : Nat) : Str :=
  match n with
  | JsNum.nan => "NaN".data
  | JsNum.posInf => "Infinity".data
  | JsNum.negInf => '-' :: "Infinity".data
  | JsNum.val q => if q < 0 then '-' :: toFixedAbs (-q) d else toFixedAbs q d

/-- Insert a comma after every group of three digits, counting from the right
(`toLocaleString('en-US')` grouping); the argument is the reversed digit
string. -/
def commaGroupRev (l : Str) : Str :=
  if _h : l.length ≤ 3 then l
  else l.take 3 ++ ',' :: commaGroupRev (l.drop 3)
termination_by l.length
decreasing_by simp; omega

/-- `Number.prototype.toLocaleString('en-US', {maximumFractionDigits: 0})` for
the values `formatCurrency` sends there (nonnegative): round half away from
zero to an integer and insert thousands separators. -/
def toLocaleUS : JsNum → Str
  | JsNum.nan => "NaN".data
  | JsNum.posInf => ['∞']
  | JsNum.negInf => '-' :: ['∞']
  | JsNum.val q =>
    if q < 0 then '-' :: (commaGroupRev (natDigits (Int.floor (-q + 1/2)).toNat).reverse).reverse
    else (commaGroupRev (natDigits (Int.floor (q + 1/2)).toNat).reverse).reverse

/-- `formatCurrency` of `docs/shared/js/utils.js`. -/
def formatCurrency (value : JsValue) (abbreviated : Bool) (decimals : Nat) : Str :=
  let num : Option JsNum :=
    match value with
    | JsValue.str s => parseCurrencyStr s
    | JsValue.nullv => none
    | JsValue.num n => some n
  match num with
  | none => "N/A".data
  | some n =>
    if n = JsNum.nan then "N/A".data
    else if jsNegative n then "N/A".data
    else if n = JsNum.val 0 then "$0".data
    else if abbreviated then
      if jsGeQ n 1000000000 then '$' :: (toFixed (jsDivQ n 1000000000) decimals ++ "B".data)
      else if jsGeQ n 1000000 then '$' :: (toFixed (jsDivQ n 1000000) decimals ++ "M".data)
      else if jsGeQ n 1000 then '$' :: (toFixed (jsDivQ n 1000) decimals ++ "K".data)
      else '$' :: toFixed n 0
    else '$' :: toLocaleUS n

example : formatCurrency (JsValue.num (JsNum.val 1234567)) true 1 = "$1.2M".data := by
  with_unfolding_all rfl
example : formatCurrency (JsValue.num (JsNum.val 1234567)) false 1 = "$1,234,567".data := by
  with_unfolding_all rfl
example : formatCurrency (JsValue.num (JsNum.val (-5))) true 1 = "N/A".data := by
  with_unfolding_all rfl
example : formatCurrency (JsValue.num (JsNum.val 0)) true 1 = "$0".data := by
  with_unfolding_all rfl
example : formatCurrency (JsValue.str "N/A".data) true 1 = "N/A".data := by
  with_unfolding_all rfl
example : formatCurrency JsValue.nullv true 1 = "N/A".data := by with_unfolding_all rfl
example : formatCurrency (JsValue.num (JsNum.val 999)) true 1 = "$999".data := by
  with_unfolding_all rfl

/-- `parseCSVLine` of `docs/shared/js/utils.js`: the quote-aware field
scanner.  First argument is the remaining input, then the `inQuotes` flag and
the field accumulated so far. -/
def parseCSVLineAux : Str → Bool → Str → List Str
  | [], _, cur => [cur]
  | '"' :: '"' :: rest, true, cur => parseCSVLineAux rest true (cur ++ ['"'])
  | '"' :: rest, inQ, cur => parseCSVLineAux rest (!inQ) cur
  | ',' :: rest, false, cur => cur :: parseCSVLineAux rest false []
  | c :: rest, inQ, cur => parseCSVLineAux rest inQ (cur ++ [c])

/-- `parseCSVLine(line)`. -/
def parseCSVLine (line : Str) : List Str := parseCSVLineAux line false []

/-- A parsed CSV row: a JavaScript object modelled as an association list in
property-creation order. -/
abbrev RowObj := List (Str × Str)

/-- `row[header] = value` on a JavaScript object: overwrite an existing key in
place, otherwise append the new property. -/
def jsSetKey (row : RowObj) (k v : Str) : RowObj :=
  if row.any (fun p => decide (p.1 = k)) then
    row.map (fun p => if p.1 = k then (k, v) else p)
  else row ++ [(k, v)]

/-- `row[key]` on a JavaScript object. -/
def jsGetKey (row : RowObj) (k : Str) : Option Str :=
  (row.find? (fun p => decide (p.1 = k))).map (fun p => p.2)

/-- The value stored for header index `i`: `values[index]?.trim() || ''`. -/
def csvValueAt (values : List Str) (i : Nat) : Str :=
  ((values.get? i).map jsTrim).getD []

/-- The `headers.forEach((header, index) => row[header.trim()] = ...)` loop of
`parseCSV`. -/
def mkRowAux (values : List Str) : List Str → Nat → RowObj → RowObj
  | [], _, row => row
  | h :: hs, i, row => mkRowAux values hs (i + 1) (jsSetKey row (jsTrim h) (csvValueAt values i))

/-- Build one row object from the header list and the field values of a data
line. -/
def mkRow (headers values : List Str) : RowObj := mkRowAux values headers 0 []

/-- `parseCSV` of `docs/shared/js/utils.js`. -/
def parseCSV (csvText : Str) : List RowObj :=
  let lines := splitChar '\n' (jsTrim csvText)
  match lines with
  | [] => []
  | header :: dataLines =>
    let headers := parseCSVLine header
    dataLines.filterMap (fun ln =>
      let line := jsTrim ln
      if line = [] then none else some (mkRow headers (parseCSVLine line)))

example : parseCSVLine "a,\"x,y\",c".data = ["a".data, "x,y".data, "c".data] := by decide
example : parseCSVLine "\"say \"\"hi\"\"\",b".data = ["say \"hi\"".data, "b".data] := by decide
example :
    parseCSV "A,B,C\none,two,three\n\n1,2".data =
      [[("A".data, "one".data), ("B".data, "two".data), ("C".data, "three".data)],
       [("A".data, "1".data), ("B".data, "2".data), ("C".data, [])]] := by decide

/-- One raw CSV row of the cancellations feed, restricted to the columns the
dashboard reads (all fields are the strings produced by `parseCSV`). -/
structure RawRow : Type where
  district : Str
  recipient : Str
  awardId : Str
  source : Str
  startDate : Str
  nominalEndDate : Str
  totalObligationsRaw : Str
  totalOutlaysRaw : Str
  description : Str
  url : Str
deriving DecidableEq

/-- A cleaned row as produced by `CancellationsDashboard.processData`: the raw
row spread together with the parsed obligation/outlay amounts and the derived
GEOID. -/
structure CleanedRow : Type where
  raw : RawRow
  totalObligations : Option JsNum
  totalOutlays : Option JsNum
  geoid : Option Str
deriving DecidableEq

/-- The map step of `processData`. -/
def cleanRow (r : RawRow) : CleanedRow :=
  { raw := r
    totalObligations := parseCurrencyStr r.totalObligationsRaw
    totalOutlays := parseCurrencyStr r.totalOutlaysRaw
    geoid := getGeoidFromDistrict r.district }

/-- The total-row sentinel test of `processData`:
`(row['Nominal End Date'] || '').toLowerCase() === 'total'`. -/
def isTotalRow (r : RawRow) : Bool := r.nominalEndDate.map asciiLower = "total".data

/-- `CancellationsDashboard.processData`: drop the total row, parse the
currency fields and derive the GEOID, then drop rows whose obligation amount
failed to parse. -/
def processData (rawData : List RawRow) : List CleanedRow :=
  ((rawData.filter (fun r => ¬ isTotalRow r)).map cleanRow).filter
    (fun c => c.totalObligations.isSome)

/-- `groupBy(array, key)` of `docs/shared/js/utils.js`, with the result object
modelled as an association list in key-insertion order: one step. -/
def addToGroup {α : Type} (acc : List (Str × List α)) (k : Str) (r : α) : List (Str × List α) :=
  if acc.any (fun p => decide (p.1 = k)) then
    acc.map (fun p => if p.1 = k then (p.1, p.2 ++ [r]) else p)
  else acc ++ [(k, [r])]

/-- `groupBy(array, key)`: the full reduce. -/
def jsGroupBy {α : Type} (key : α → Str) (l : List α) : List (Str × List α) :=
  l.foldl (fun acc r => addToGroup acc (key r) r) []

/-- The group stored under key `k` (empty when the key was never seen). -/
def groupOf {α : Type} (groups : List (Str × List α)) (k : Str) : List α :=
  ((groups.find? (fun p => decide (p.1 = k))).map (fun p => p.2)).getD []

/-- The contribution of one cleaned row to `sumBy(array, 'totalObligations')`:
`sum + (value || 0)` keeps a finite or infinite number and replaces
null/NaN (and zero) by zero. -/
def oblContribution (r : CleanedRow) : JsNum :=
  match r.totalObligations with
  | some n => if jsTruthy n then n else JsNum.val 0
  | none => JsNum.val 0

/-- `sumBy(array, 'totalObligations')` of `docs/shared/js/utils.js`, in the
exact-rational reading of `+`; `fpSumByObl` below is the same fold with
faithful binary64 addition. -/
def sumByObl (l : List CleanedRow) : JsNum :=
  l.foldl (fun s r => jsAdd s (oblContribution r)) (JsNum.val 0)

/-- The GEOID key of a cleaned row (only used after the truthiness filter, so
the default never surfaces). -/
def geoidKey (r : CleanedRow) : Str := r.geoid.getD []

/-- The rows that survive `filter(row => row.geoid)` in
`calculateDistrictData`. -/
def withGeoid (cleanedData : List CleanedRow) : List CleanedRow :=
  cleanedData.filter (fun r => r.geoid.isSome)

/-- `this.districtCounts` of `calculateDistrictData`: award count per GEOID,
in key-insertion order. -/
def districtCounts (cleanedData : List CleanedRow) : List (Str × Nat) :=
  (jsGroupBy geoidKey (withGeoid cleanedData)).map (fun p => (p.1, p.2.length))

/-- `this.maxContracts` of `calculateDistrictData`: starts at 1 and takes the
largest per-GEOID count. -/
def maxContracts (cleanedData : List CleanedRow) : Nat :=
  (jsGroupBy geoidKey (withGeoid cleanedData)).foldl
    (fun m p => if p.2.length > m then p.2.length else m) 1

/-- The obligation amount of a cleaned row as the value `formatCurrency`
receives (`null` when the parse failed, impossible after `processData`). -/
def oblValue (r : CleanedRow) : JsValue :=
  match r.totalObligations with
  | some n => JsValue.num n
  | none => JsValue.nullv

/-- One hover line: `<b>Recipient</b><br>amount (Award ID: id)`. -/
def hoverLine (r : CleanedRow) : Str :=
  "<b>".data ++ r.raw.recipient ++ "</b><br>".data ++
    formatCurrency (oblValue r) false 1 ++ " (Award ID: ".data ++ r.raw.awardId ++ ")".data

/-- Concatenate hover lines with `<br>` separators (`Array.prototype.join`). -/
def joinBr : List Str → Str
  | [] => []
  | [l] => l
  | l :: rest => l ++ "<br>".data ++ joinBr rest

/-- The hover HTML built for one GEOID group. -/
def hoverHtml (contracts : List CleanedRow) : Str :=
  "<b>Number of awards: ".data ++ natDigits contracts.length ++ "</b>".data ++
    "<br><br>".data ++ joinBr (contracts.map hoverLine)

/-- `this.hoverInfo` of `calculateDistrictData`. -/
def hoverInfo (cleanedData : List CleanedRow) : List (Str × Str) :=
  (jsGroupBy geoidKey (withGeoid cleanedData)).map (fun p => (p.1, hoverHtml p.2))

/-- One entry of the districts table before sorting. -/
structure DistrictRow : Type where
  district : Str
  contractCount : Nat
  rawObligations : JsNum
  totalObligations : Str
deriving DecidableEq

/-- One entry of the recipients table before sorting. -/
structure RecipientRow : Type where
  recipient : Str
  contractCount : Nat
  totalObligations : Str
deriving DecidableEq

/-- `a` must be placed before `b` by `Array.prototype.sort(cmp)`: the
comparator returned a negative number (a NaN comparator value counts as a
tie). -/
def cmpBefore {α : Type} (key : α → JsNum) (a b : α) : Bool :=
  jsNegative (jsSub (key b) (key a))

/-- Insert into an already sorted list, passing exactly the elements that must
come before the new one (ties keep the earlier element first). -/
def sortInsert {α : Type} (key : α → JsNum) (x : α) : List α → List α
  | [] => [x]
  | y :: ys => if cmpBefore key y x then y :: sortInsert key x ys else x :: y :: ys

/-- `Array.prototype.sort((a, b) => key(b) - key(a))`: a stable descending
sort (ECMAScript sorts are stable). -/
def jsSortDesc {α : Type} (key : α → JsNum) : List α → List α
  | [] => []
  | x :: xs => sortInsert key x (jsSortDesc key xs)

/-- The districts table of `renderDistrictsTable`: group the cleaned rows by
their raw `District` string, total the obligations, and sort by descending
total. -/
def districtsTableData (cleanedData : List CleanedRow) : List DistrictRow :=
  jsSortDesc (fun r => r.rawObligations)
    ((jsGroupBy (fun r => r.raw.district) cleanedData).map (fun p =>
      { district := p.1
        contractCount := p.2.length
        rawObligations := sumByObl p.2
        totalObligations := formatCurrency (JsValue.num (sumByObl p.2)) false 1 }))

/-- The recipients table of `renderRecipientsTable`: group by recipient and
sort by descending award count. -/
def recipientsTableData (cleanedData : List CleanedRow) : List RecipientRow :=
  jsSortDesc (fun r => JsNum.val (r.contractCount : ℚ))
    ((jsGroupBy (fun r => r.raw.recipient) cleanedData).map (fun p =>
      { recipient := p.1
        contractCount := p.2.length
        totalObligations := formatCurrency (JsValue.num (sumByObl p.2)) false 1 }))

/-- One entry of a stepped colour scale: threshold (∞ for the final bucket),
colour, legend label. -/
structure ColorStep : Type where
  threshold : WithTop ℚ
  color : Str
  label : Str

/-- `COLORS.choropleth.spendingSteps` of `docs/shared/js/constants.js`. -/
def spendingSteps : List ColorStep :=
  [⟨(500000 : ℚ), "#fdfde6".data, "< $500K".data⟩,
   ⟨(5000000 : ℚ), "#d6ebca".data, "$500K to $5M".data⟩,
   ⟨(50000000 : ℚ), "#7fcdbb".data, "$5M to $50M".data⟩,
   ⟨(250000000 : ℚ), "#41b6c4".data, "$50M to $250M".data⟩,
   ⟨(1000000000 : ℚ), "#2c7fb8".data, "$250M to $1B".data⟩,
   ⟨⊤, "#253494".data, "$1B+".data⟩]

/-- The zero/high colour configuration a `ChoroplethMap` instance holds (a
JavaScript object whose properties may be absent). -/
structure MapColors : Type where
  zero : Option Str
  high : Option Str

/-- `ChoroplethMap.getSteppedColor(value)` with the instance state passed
explicitly: colour configuration, optional stepped scale, and the data
value. -/
def getSteppedColor (colors : MapColors) (steppedScale : Option (List ColorStep))
    (value : ℚ) : Str :=
  if value ≤ 0 then colors.zero.getD "#f0f0f0".data
  else
    match steppedScale with
    | none => colors.high.getD "#037CC2".data
    | some steps =>
      match steps.find? (fun s => decide ((value : WithTop ℚ) < s.threshold)) with
      | some s => s.color
      | none => ((steps.getLast?).map (fun s => s.color)).getD []

/-- The bucket index assigned to a positive value: position of the first entry
whose threshold strictly exceeds the value. -/
def stepIndex (steps : List ColorStep) (value : ℚ) : Nat :=
  steps.findIdx (fun s => decide ((value : WithTop ℚ) < s.threshold))

/-- Python `round`: round half to even (used on the interpolated colour
channels of the Quarto dashboard). -/
def pyRound (q : ℚ) : ℤ :=
  if q - Int.floor q < 1/2 then Int.floor q
  else if 1/2 < q - Int.floor q then Int.floor q + 1
  else if Int.floor q % 2 = 0 then Int.floor q else Int.floor q + 1

/-- Lowercase hexadecimal digits of a natural number, at least `w` of them
(Python `'{:02x}'.format`). -/
def hexDigits (n : Nat) : Str := (Nat.toDigits 16 n).map asciiLower

/-- One `{:02x}` field. -/
def hexByte (n : Nat) : Str := padStart (hexDigits n) 2 '0'

/-- Python `rgb_to_hex` on already-integral channels. -/
def rgb_to_hex (r g b : ℤ) : Str :=
  '#' :: (hexByte r.toNat ++ hexByte g.toNat ++ hexByte b.toNat)

/-- `color_zero = hex_to_rgb('#FFFFFF')` of the Quarto dashboard. -/
def color_zero : ℤ × ℤ × ℤ := (255, 255, 255)

/-- `color_one = hex_to_rgb('#d19690')`. -/
def color_one : ℤ × ℤ × ℤ := (209, 150, 144)

/-- `color_max = hex_to_rgb('#9c1a0e')`. -/
def color_max : ℤ × ℤ × ℤ := (156, 26, 14)

/-- The clamped interpolation factor `t` of `get_choropleth_color`. -/
def chorT (count max_count : ℚ) : ℚ :=
  max 0 (min 1 ((count - 1) / (max_count - 1)))

/-- One interpolated channel `one + (max - one) * t`. -/
def chorChannel (one mx : ℤ) (t : ℚ) : ℚ := (one : ℚ) + ((mx : ℚ) - (one : ℚ)) * t

/-- `get_choropleth_color(count, max_count)` of the Quarto dashboard's Python
chunk. -/
def get_choropleth_color (count max_count : ℚ) : Str :=
  if count ≤ 0 then rgb_to_hex color_zero.1 color_zero.2.1 color_zero.2.2
  else if count = 1 then rgb_to_hex color_one.1 color_one.2.1 color_one.2.2
  else if max_count ≤ 1 then rgb_to_hex color_one.1 color_one.2.1 color_one.2.2
  else
    let t := chorT count max_count
    rgb_to_hex (pyRound (chorChannel color_one.1 color_max.1 t))
      (pyRound (chorChannel color_one.2.1 color_max.2.1 t))
      (pyRound (chorChannel color_one.2.2 color_max.2.2 t))

/-- `df_cleaned` of the Quarto dashboard's Python chunk: truncate the frame at
the first row whose `Nominal End Date` is exactly `'Total'`; keep everything
when no such row exists. -/
def py_df_cleaned (rows : List RawRow) : List RawRow :=
  match rows.findIdx? (fun r => decide (r.nominalEndDate = "Total".data)) with
  | some i => rows.take i
  | none => rows

example : get_choropleth_color 0 5 = "#ffffff".data := by with_unfolding_all rfl
example : get_choropleth_color 1 5 = "#d19690".data := by with_unfolding_all rfl
example : get_choropleth_color 5 5 = "#9c1a0e".data := by with_unfolding_all rfl
example : get_choropleth_color 3 5 = "#b6584f".data := by with_unfolding_all rfl
example :
    getSteppedColor ⟨some "#FFFFFF".data, some "#037CC2".data⟩ (some spendingSteps) 600000
      = "#d6ebca".data := by with_unfolding_all rfl
example :
    getSteppedColor ⟨some "#FFFFFF".data, some "#037CC2".data⟩ (some spendingSteps) 2000000000
      = "#253494".data := by with_unfolding_all rfl

/-- The `replace({'\$': '', ',': ''}, regex=True)` cleaning of the Quarto
dashboard (note: unlike the JavaScript cleaner it does not remove
whitespace). -/
def pyCleanMoney (s : Str) : Str := s.filter (fun c => ¬ (c = '$' ∨ c = ','))

/-- Exponent tail of a Python float literal: must consume the whole rest. -/
def pyExpTail (rest : Str) : Option ℤ :=
  match rest with
  | [] => some 0
  | c :: r1 =>
    if c = 'e' ∨ c = 'E' then
      match r1 with
      | '+' :: r2 =>
        let ds := r2.takeWhile isDigitC
        if ds = [] ∨ r2.drop ds.length ≠ [] then none else some (digitsToNat ds : ℤ)
      | '-' :: r2 =>
        let ds := r2.takeWhile isDigitC
        if ds = [] ∨ r2.drop ds.length ≠ [] then none else some (-(digitsToNat ds : ℤ))
      | _ =>
        let ds := r1.takeWhile isDigitC
        if ds = [] ∨ r1.drop ds.length ≠ [] then none else some (digitsToNat ds : ℤ)
    else none

/-- Unsigned numeric part of Python `float(str)`: digits with optional
fraction and exponent, consuming the whole string. -/
def pyParseUnsigned (r : Str) : Option ℚ :=
  let ints := r.takeWhile isDigitC
  let r1 := r.drop ints.length
  match r1 with
  | '.' :: r2 =>
    let fr := r2.takeWhile isDigitC
    if ints = [] ∧ fr = [] then none
    else
      (pyExpTail (r2.drop fr.length)).map (fun e =>
        ((digitsToNat ints : ℚ) + (digitsToNat fr : ℚ) / (10 : ℚ) ^ fr.length) * (10 : ℚ) ^ e)
  | _ =>
    if ints = [] then none
    else (pyExpTail r1).map (fun e => (digitsToNat ints : ℚ) * (10 : ℚ) ^ e)

/-- Python `float(str)` as used by `pd.to_numeric(..., errors='coerce')`:
strict full-string parse; failures and the literal `nan` coerce to NaN. -/
def pyFloatOfStr (s : Str) : JsNum :=
  let t := jsTrim s
  match t with
  | '+' :: r =>
    if r.map asciiLower = "inf".data ∨ r.map asciiLower = "infinity".data then JsNum.posInf
    else match pyParseUnsigned r with
      | some q => JsNum.val q
      | none => JsNum.nan
  | '-' :: r =>
    if r.map asciiLower = "inf".data ∨ r.map asciiLower = "infinity".data then JsNum.negInf
    else match pyParseUnsigned r with
      | some q => JsNum.val (-q)
      | none => JsNum.nan
  | _ =>
    if t.map asciiLower = "inf".data ∨ t.map asciiLower = "infinity".data then JsNum.posInf
    else match pyParseUnsigned t with
      | some q => JsNum.val q
      | none => JsNum.nan

/-- `pd.to_numeric(df['Total Obligations'].replace(...), errors='coerce')`. -/
def pyToNumericMoney (s : Str) : JsNum := pyFloatOfStr (pyCleanMoney s)

/-- The workflow pipeline through the `dropna(subset=['Total Obligations'])`
step: truncate at the first exact-case `'Total'` row, then drop rows whose
obligation amount failed to coerce. -/
def py_obligations_cleaned (rows : List RawRow) : List RawRow :=
  (py_df_cleaned rows).filter (fun r => pyToNumericMoney r.totalObligationsRaw ≠ JsNum.nan)

/-- Lexicographic (code-point) order on strings, the natural ascending key
order for tie-breaking. -/
def strLt : Str → Str → Bool
  | [], [] => false
  | [], _ :: _ => true
  | _ :: _, [] => false
  | a :: as, b :: bs => if a.toNat < b.toNat then true else if b.toNat < a.toNat then false else strLt as bs

/-- A string that is a canonical array index (`"0"`, or digits without a
leading zero): JavaScript objects order such keys numerically before all other
keys, so the insertion-order model of `groupBy` assumes keys are not of this
shape. -/
def isCanonicalIndex (s : Str) : Bool :=
  s ≠ [] && s.all isDigitC && (s = "0".data || s.headD '0' ≠ '0')

example : pyToNumericMoney "$1,234.50".data = JsNum.val (2469/2) := by with_unfolding_all rfl
example : pyToNumericMoney "N/A".data = JsNum.nan := by with_unfolding_all rfl
example : pyToNumericMoney "12abc".data = JsNum.nan := by with_unfolding_all rfl

/-- Keep the first occurrence of every string, in order: the key order in
which `groupBy` creates its (non-index) object properties. -/
def dedupFirst : List Str → List Str
  | [] => []
  | k :: ks => k :: (dedupFirst ks).filter (fun k2 => !decide (k2 = k))

/-- A cancelled award in district TX-2 (raw CSV row). -/
def cexRawTX : RawRow :=
  { district := "TX-2".data, recipient := "ZZ Corp".data, awardId := "A1".data
    source := "USA".data, startDate := "2024-01-01".data
    nominalEndDate := "2025-01-01".data, totalObligationsRaw := "$5".data
    totalOutlaysRaw := "$1".data, description := "x".data, url := "u".data }

/-- A cancelled award in district AL-1 with the same obligation amount,
appearing later in the file. -/
def cexRawAL : RawRow :=
  { district := "AL-1".data, recipient := "AA Corp".data, awardId := "A2".data
    source := "USA".data, startDate := "2024-01-01".data
    nominalEndDate := "2025-01-01".data, totalObligationsRaw := "$5".data
    totalOutlaysRaw := "$1".data, description := "y".data, url := "v".data }

/-- `⌊log₂ n⌋` by halving, with explicit structural fuel so the kernel can
unfold it cheaply. -/
def log2Fuel : Nat → Nat → Nat
  | 0, _ => 0
  | fuel + 1, n => if n < 2 then 0 else log2Fuel fuel (n / 2) + 1

/-- `⌊log₂ n⌋`, exact for every `n < 2^8192` — far beyond every magnitude a
binary64 value or a sum of two of them can take. -/
def floorLog2Nat (n : Nat) : Nat := log2Fuel 8192 n

/-- `2^k` as an exact rational, for an integer exponent. -/
def qPow2 : ℤ → ℚ
  | Int.ofNat k => ((2 ^ k : ℕ) : ℚ)
  | Int.negSucc k => 1 / ((2 ^ (k + 1) : ℕ) : ℚ)

/-- `⌊log₂ m⌋` of a positive rational: the candidate from the numerator and
denominator bit lengths is off by at most one, fixed by a single comparison. -/
def floorLog2Q (m : ℚ) : ℤ :=
  let c : ℤ := (floorLog2Nat m.num.toNat : ℤ) - (floorLog2Nat m.den : ℤ)
  if qPow2 c ≤ m then c else c - 1

/-- Round a rational to the nearest integer, ties to even. -/
def roundTiesEven (q : ℚ) : ℤ :=
  let f := q.floor
  let r := q - (f : ℚ)
  if r < 1/2 then f
  else if (1/2 : ℚ) < r then f + 1
  else if f % 2 = 0 then f else f + 1

/-- Round a positive rational to the nearest IEEE-754 binary64 value (round
to nearest, ties to even; subnormals at scale `2^-1074`; overflow to
`Infinity` when the rounded value reaches `2^1024`). -/
def fp64RoundPos (m : ℚ) : JsNum :=
  let e := floorLog2Q m
  let scale : ℤ := if e < -1022 then 1074 else 52 - e
  let n := roundTiesEven (m * qPow2 scale)
  if 1024 ≤ e ∨ (e = 1023 ∧ n = 9007199254740992) then JsNum.posInf
  else JsNum.val ((n : ℚ) * qPow2 (-scale))

/-- The binary64 double nearest a rational: what a JavaScript number actually
stores. -/
def fp64OfQ (q : ℚ) : JsNum :=
  if q = 0 then JsNum.val 0
  else if 0 < q then fp64RoundPos q
  else match fp64RoundPos (-q) with
    | JsNum.posInf => JsNum.negInf
    | JsNum.val v => JsNum.val (-v)
    | x => x

/-- IEEE-754 addition of JavaScript numbers: NaN and infinity propagation as
in `jsAdd`, and the exact sum of two finite doubles rounded back to
binary64. -/
def fp64Add : JsNum → JsNum → JsNum
  | JsNum.nan, _ => JsNum.nan
  | _, JsNum.nan => JsNum.nan
  | JsNum.posInf, JsNum.negInf => JsNum.nan
  | JsNum.negInf, JsNum.posInf => JsNum.nan
  | JsNum.posInf, _ => JsNum.posInf
  | _, JsNum.posInf => JsNum.posInf
  | JsNum.negInf, _ => JsNum.negInf
  | _, JsNum.negInf => JsNum.negInf
  | JsNum.val a, JsNum.val b => fp64OfQ (a + b)

/-- `sumBy(array, 'totalObligations')` with the floating-point addition the
program actually performs. -/
def fpSumByObl (l : List CleanedRow) : JsNum :=
  l.foldl (fun s r => fp64Add s (oblContribution r)) (JsNum.val 0)

/-- A $0.10 award in district TX-2: `totalObligations` holds the binary64
double nearest 1/10, as `parseFloat("0.10")` produces. -/
def cexDime : CleanedRow :=
  { raw := { district := "TX-2".data, recipient := "R1".data, awardId := "A1".data
             source := [], startDate := [], nominalEndDate := []
             totalObligationsRaw := "$0.10".data, totalOutlaysRaw := []
             description := [], url := [] }
    totalObligations := some (fp64OfQ (1/10))
    totalOutlays := none
    geoid := some "4802".data }

/-- A $0.20 award in the same district. -/
def cexTwoDimes : CleanedRow :=
  { raw := { district := "TX-2".data, recipient := "R2".data, awardId := "A2".data
             source := [], startDate := [], nominalEndDate := []
             totalObligationsRaw := "$0.20".data, totalOutlaysRaw := []
             description := [], url := [] }
    totalObligations := some (fp64OfQ (2/10))
    totalOutlays := none
    geoid := some "4802".data }

/-- A $0.30 award in the same district. -/
def cexThreeDimes : CleanedRow :=
  { raw := { district := "TX-2".data, recipient := "R3".data, awardId := "A3".data
             source := [], startDate := [], nominalEndDate := []
             totalObligationsRaw := "$0.30".data, totalOutlaysRaw := []
             description := [], url := [] }
    totalObligations := some (fp64OfQ (3/10))
    totalOutlays := none
    geoid := some "4802".data }

/-! ## Lemmas and claim theorems -/

theorem parseCurrencyStr_ne_nan (s : Str) : parseCurrencyStr s ≠ some JsNum.nan := by
  unfold parseCurrencyStr
  split
  · simp
  · dsimp only
    split <;> simp_all

theorem formatCurrency_str_eq (s : Str) (n : JsNum) (h : parseCurrencyStr s = some n)
    (ab : Bool) (d : Nat) :
    formatCurrency (JsValue.str s) ab d = formatCurrency (JsValue.num n) ab d := by
  simp [formatCurrency, h]

theorem formatCurrency_neg (n : JsNum) (h : jsNegative n = true) (ab : Bool) (d : Nat) :
    formatCurrency (JsValue.num n) ab d = "N/A".data := by
  have hnan : n ≠ JsNum.nan := by cases n <;> simp_all [jsNegative]
  simp [formatCurrency, hnan, h]

theorem formatCurrency_zero (ab : Bool) (d : Nat) :
    formatCurrency (JsValue.num (JsNum.val 0)) ab d = "$0".data := by
  simp [formatCurrency, jsNegative]

theorem formatCurrency_pos (n : JsNum) (h : jsPositive n = true) (ab : Bool) (d : Nat) :
    (formatCurrency (JsValue.num n) ab d).head? = some '$' := by
  cases n with
  | nan => simp [jsPositive] at h
  | negInf => simp [jsPositive] at h
  | posInf =>
    simp only [formatCurrency]
    split_ifs <;> simp_all [jsNegative, jsGeQ]
  | val q =>
    simp only [jsPositive, decide_eq_true_eq] at h
    have h0 : ¬ (JsNum.val q = JsNum.nan) := by simp
    have h1 : ¬ (jsNegative (JsNum.val q) = true) := by
      simp only [jsNegative, decide_eq_true_eq]; intro hc; linarith
    have h2 : ¬ (JsNum.val q = JsNum.val 0) := by
      simp only [JsNum.val.injEq]; intro hc; linarith
    simp only [formatCurrency, if_neg h0, if_neg h1, if_neg h2]
    split_ifs <;> simp

theorem formatCurrency_num_core (n : JsNum) (hn : n ≠ JsNum.nan) (ab : Bool) (d : Nat) :
    (formatCurrency (JsValue.num n) ab d = "N/A".data ↔ jsNegative n = true)
    ∧ (n = JsNum.val 0 → formatCurrency (JsValue.num n) ab d = "$0".data)
    ∧ (jsPositive n = true → (formatCurrency (JsValue.num n) ab d).head? = some '$') := by
  have head_ne : ∀ m : JsNum, jsPositive m = true →
      formatCurrency (JsValue.num m) ab d ≠ "N/A".data := by
    intro m hm heq
    have hh := formatCurrency_pos m hm ab d
    rw [heq] at hh
    simp at hh
  cases n with
  | nan => exact absurd rfl hn
  | posInf =>
    refine ⟨⟨fun h => absurd h (head_ne JsNum.posInf rfl), fun h => by simp [jsNegative] at h⟩,
      fun h => by simp at h, fun _ => formatCurrency_pos JsNum.posInf rfl ab d⟩
  | negInf =>
    refine ⟨⟨fun _ => rfl, fun _ => formatCurrency_neg JsNum.negInf rfl ab d⟩,
      fun h => by simp at h, fun h => by simp [jsPositive] at h⟩
  | val q =>
    rcases lt_trichotomy q 0 with hq | hq | hq
    · have hneg : jsNegative (JsNum.val q) = true := by
        simp [jsNegative]; exact hq
      refine ⟨⟨fun _ => hneg, fun _ => formatCurrency_neg _ hneg ab d⟩,
        fun h => by simp at h; linarith, fun h => by simp [jsPositive] at h; linarith⟩
    · subst hq
      refine ⟨⟨fun h => ?_, fun h => by simp [jsNegative] at h⟩,
        fun _ => formatCurrency_zero ab d, fun h => by simp [jsPositive] at h⟩
      rw [formatCurrency_zero ab d] at h
      simp at h
    · have hpos : jsPositive (JsNum.val q) = true := by
        simp [jsPositive]; exact hq
      refine ⟨⟨fun h => absurd h (head_ne _ hpos), fun h => by
          simp [jsNegative] at h; linarith⟩,
        fun h => by simp at h; linarith, fun _ => formatCurrency_pos _ hpos ab d⟩

/-- C10: for every input to `formatCurrency` (null, number or currency
string), a null, non-numeric or strictly negative value renders as `"N/A"`
(and nothing else does), an exactly-zero value renders as `"$0"`, and every
positive value (finite or infinite) renders as a dollar string beginning with
`'$'`; in particular a negative obligation never appears as a negative dollar
figure. -/
theorem formatCurrency_na_zero_dollar (v : JsValue) (ab : Bool) (d : Nat) :
    (formatCurrency v ab d = "N/A".data ↔
      parseCurrency v = none ∨ ∃ n, parseCurrency v = some n ∧ jsNegative n = true)
    ∧ (parseCurrency v = some (JsNum.val 0) → formatCurrency v ab d = "$0".data)
    ∧ (∀ n, parseCurrency v = some n → jsPositive n = true →
        (formatCurrency v ab d).head? = some '$') := by
  cases v with
  | nullv => simp [formatCurrency, parseCurrency]
  | num n =>
    cases n with
    | nan => simp [formatCurrency, parseCurrency]
    | posInf =>
      have hc := formatCurrency_num_core JsNum.posInf (by simp) ab d
      refine ⟨⟨fun h => absurd ((hc.1).mp h) (by simp [jsNegative]), fun h => ?_⟩,
        fun h => by simp [parseCurrency] at h, fun n hn hp => ?_⟩
      · rcases h with h | ⟨m, hm, hneg⟩
        · simp [parseCurrency] at h
        · simp only [parseCurrency] at hm
          cases Option.some.inj hm
          simp [jsNegative] at hneg
      · simp only [parseCurrency] at hn
        cases Option.some.inj hn
        exact hc.2.2 hp
    | negInf =>
      have hc := formatCurrency_num_core JsNum.negInf (by simp) ab d
      refine ⟨⟨fun _ => Or.inr ⟨JsNum.negInf, rfl, rfl⟩, fun _ => (hc.1).mpr rfl⟩,
        fun h => by simp [parseCurrency] at h, fun n hn hp => ?_⟩
      simp only [parseCurrency] at hn
      cases Option.some.inj hn
      simp [jsPositive] at hp
    | val q =>
      have hc := formatCurrency_num_core (JsNum.val q) (by simp) ab d
      have hpc : parseCurrency (JsValue.num (JsNum.val q)) = some (JsNum.val q) := rfl
      refine ⟨⟨fun h => Or.inr ⟨JsNum.val q, hpc, (hc.1).mp h⟩, fun h => ?_⟩,
        fun h => ?_, fun n hn hp => ?_⟩
      · rcases h with h | ⟨m, hm, hneg⟩
        · rw [hpc] at h; exact absurd h (by simp)
        · rw [hpc] at hm
          cases Option.some.inj hm
          exact (hc.1).mpr hneg
      · rw [hpc] at h
        exact hc.2.1 (Option.some.inj h)
      · rw [hpc] at hn
        cases Option.some.inj hn
        exact hc.2.2 hp
  | str s =>
    have hpc : parseCurrency (JsValue.str s) = parseCurrencyStr s := rfl
    rcases hps : parseCurrencyStr s with _ | n
    · have hfmt : formatCurrency (JsValue.str s) ab d = "N/A".data := by
        simp [formatCurrency, hps]
      rw [hfmt, hpc, hps]
      simp
    · have hn : n ≠ JsNum.nan := by
        intro hc; subst hc; exact parseCurrencyStr_ne_nan s hps
      have hfmt := formatCurrency_str_eq s n hps ab d
      have hc := formatCurrency_num_core n hn ab d
      rw [hfmt, hpc, hps]
      refine ⟨⟨fun h => Or.inr ⟨n, rfl, (hc.1).mp h⟩, fun h => ?_⟩, fun h => ?_,
        fun m hm hp => ?_⟩
      · rcases h with h | ⟨m, hm, hneg⟩
        · exact absurd h (by simp)
        · cases Option.some.inj hm
          exact (hc.1).mpr hneg
      · cases Option.some.inj h
        exact hc.2.1 rfl
      · cases Option.some.inj hm
        exact hc.2.2 hp

theorem formatCurrency_na_zero_dollar_use :
    (formatCurrency (JsValue.num (JsNum.val 5)) true 1).head? = some '$' ∧
      formatCurrency (JsValue.num (JsNum.val (-7))) false 0 = "N/A".data := by
  constructor
  · exact (formatCurrency_na_zero_dollar (JsValue.num (JsNum.val 5)) true 1).2.2
      (JsNum.val 5) rfl (by norm_num [jsPositive])
  · exact ((formatCurrency_na_zero_dollar (JsValue.num (JsNum.val (-7))) false 0).1).mpr
      (Or.inr ⟨JsNum.val (-7), rfl, by norm_num [jsNegative]⟩)

theorem pyRound_nearest (x : ℚ) : |(pyRound x : ℚ) - x| ≤ 1/2 := by
  unfold pyRound
  have h0 : (0:ℚ) ≤ x - ⌊x⌋ := by
    have := Int.floor_le x; linarith
  have h1 : x - ⌊x⌋ < 1 := by
    have := Int.lt_floor_add_one x; linarith
  split_ifs with ha hb hc
  all_goals rw [abs_le]; push_cast; constructor <;> linarith

theorem pyRound_ofInt (n : ℤ) : pyRound (n : ℚ) = n := by
  unfold pyRound
  rw [Int.floor_intCast]
  norm_num

theorem chorT_saturates (count max_count : ℚ) (h1 : 1 < max_count) (h2 : max_count ≤ count) :
    chorT count max_count = 1 := by
  unfold chorT
  have hpos : (0:ℚ) < max_count - 1 := by linarith
  have hge : 1 ≤ (count - 1) / (max_count - 1) := by
    rw [le_div_iff₀ hpos]; linarith
  rw [min_eq_left hge]
  simp

/-- C7: `get_choropleth_color` is a pure function of `(value, maxValue)`:
value ≤ 0 gives the zero colour `#ffffff`; value = 1 gives the one colour
`#d19690`; a positive non-1 value with maxValue ≤ 1 also gives the one colour
(the divide-by-zero guard); a value above 1 with maxValue above 1 is the
channel-wise linear interpolation between the one and max colours with factor
clamp((value−1)/(maxValue−1), 0, 1), each channel rounded to a nearest
integer before hex encoding; saturation at or above maxValue gives the max
colour `#9c1a0e` exactly. -/
theorem get_choropleth_color_spec (count max_count : ℚ) :
    (count ≤ 0 → get_choropleth_color count max_count = "#ffffff".data)
    ∧ (count = 1 → get_choropleth_color count max_count = "#d19690".data)
    ∧ (0 < count → count ≠ 1 → max_count ≤ 1 →
        get_choropleth_color count max_count = "#d19690".data)
    ∧ (1 < count → 1 < max_count →
        get_choropleth_color count max_count =
          rgb_to_hex (pyRound (chorChannel 209 156 (chorT count max_count)))
            (pyRound (chorChannel 150 26 (chorT count max_count)))
            (pyRound (chorChannel 144 14 (chorT count max_count)))
          ∧ chorT count max_count = max 0 (min 1 ((count - 1) / (max_count - 1))))
    ∧ (∀ x : ℚ, |(pyRound x : ℚ) - x| ≤ 1/2)
    ∧ (1 < max_count → max_count ≤ count →
        get_choropleth_color count max_count = "#9c1a0e".data) := by
  refine ⟨?_, ?_, ?_, ?_, pyRound_nearest, ?_⟩
  · intro h
    unfold get_choropleth_color
    rw [if_pos h]
    decide
  · intro h
    subst h
    unfold get_choropleth_color
    rw [if_neg (by norm_num), if_pos rfl]
    decide
  · intro h1 h2 h3
    unfold get_choropleth_color
    rw [if_neg (by linarith), if_neg h2, if_pos h3]
    decide
  · intro h1 h2
    unfold get_choropleth_color
    rw [if_neg (by linarith), if_neg (by linarith), if_neg (by linarith)]
    exact ⟨rfl, rfl⟩
  · intro h1 h2
    have hc1 : (1:ℚ) < count := lt_of_lt_of_le h1 h2
    have h4 : get_choropleth_color count max_count =
        rgb_to_hex (pyRound (chorChannel 209 156 (chorT count max_count)))
          (pyRound (chorChannel 150 26 (chorT count max_count)))
          (pyRound (chorChannel 144 14 (chorT count max_count))) := by
      unfold get_choropleth_color
      rw [if_neg (by linarith), if_neg (by linarith), if_neg (by linarith)]
      rfl
    rw [h4, chorT_saturates count max_count h1 h2]
    have e1 : chorChannel 209 156 1 = ((156 : ℤ) : ℚ) := by
      unfold chorChannel; norm_num
    have e2 : chorChannel 150 26 1 = ((26 : ℤ) : ℚ) := by
      unfold chorChannel; norm_num
    have e3 : chorChannel 144 14 1 = ((14 : ℤ) : ℚ) := by
      unfold chorChannel; norm_num
    rw [e1, e2, e3, pyRound_ofInt, pyRound_ofInt, pyRound_ofInt]
    decide

theorem get_choropleth_color_spec_use :
    get_choropleth_color 0 5 = "#ffffff".data ∧
      get_choropleth_color 1 5 = "#d19690".data ∧
      get_choropleth_color 7 5 = "#9c1a0e".data := by
  refine ⟨(get_choropleth_color_spec 0 5).1 le_rfl,
    (get_choropleth_color_spec 1 5).2.1 rfl,
    (get_choropleth_color_spec 7 5).2.2.2.2.2 (by norm_num) (by norm_num)⟩

theorem findStep_lt {v t : ℚ} (h : v < t) (c lb : Str) (rest : List ColorStep) :
    List.find? (fun s => decide ((v : WithTop ℚ) < s.threshold)) (⟨(t : ℚ), c, lb⟩ :: rest)
      = some ⟨(t : ℚ), c, lb⟩ := by
  apply List.find?_cons_of_pos
  simp only [decide_eq_true_eq]
  exact_mod_cast h

theorem findStep_ge {v t : ℚ} (h : ¬ v < t) (c lb : Str) (rest : List ColorStep) :
    List.find? (fun s => decide ((v : WithTop ℚ) < s.threshold)) (⟨(t : ℚ), c, lb⟩ :: rest)
      = List.find? (fun s => decide ((v : WithTop ℚ) < s.threshold)) rest := by
  apply List.find?_cons_of_neg
  simp only [decide_eq_true_eq]
  intro hc
  exact h (by exact_mod_cast hc)

theorem findStep_top {v : ℚ} (c lb : Str) (rest : List ColorStep) :
    List.find? (fun s => decide ((v : WithTop ℚ) < s.threshold)) (⟨⊤, c, lb⟩ :: rest)
      = some ⟨⊤, c, lb⟩ := by
  apply List.find?_cons_of_pos
  simp

theorem findIdxStep_lt {v t : ℚ} (h : v < t) (c lb : Str) (rest : List ColorStep) :
    List.findIdx (fun s => decide ((v : WithTop ℚ) < s.threshold)) (⟨(t : ℚ), c, lb⟩ :: rest)
      = 0 := by
  have hd : decide (v < t) = true := decide_eq_true h
  simp [List.findIdx_cons, hd]

theorem findIdxStep_ge {v t : ℚ} (h : ¬ v < t) (c lb : Str) (rest : List ColorStep) :
    List.findIdx (fun s => decide ((v : WithTop ℚ) < s.threshold)) (⟨(t : ℚ), c, lb⟩ :: rest)
      = List.findIdx (fun s => decide ((v : WithTop ℚ) < s.threshold)) rest + 1 := by
  have hd : decide (v < t) = false := decide_eq_false h
  simp [List.findIdx_cons, hd]

theorem findIdxStep_top {v : ℚ} (c lb : Str) (rest : List ColorStep) :
    List.findIdx (fun s => decide ((v : WithTop ℚ) < s.threshold)) (⟨⊤, c, lb⟩ :: rest)
      = 0 := by
  have hd : decide ((v : WithTop ℚ) < (⊤ : WithTop ℚ)) = true :=
    decide_eq_true (WithTop.coe_lt_top v)
  simp [List.findIdx_cons, hd]

theorem stepIndex_spending (v : ℚ) :
    stepIndex spendingSteps v =
      if v < 500000 then 0 else if v < 5000000 then 1 else if v < 50000000 then 2
      else if v < 250000000 then 3 else if v < 1000000000 then 4 else 5 := by
  unfold stepIndex spendingSteps
  split_ifs with h1 h2 h3 h4 h5
  · rw [findIdxStep_lt h1]
  · rw [findIdxStep_ge h1, findIdxStep_lt h2]
  · rw [findIdxStep_ge h1, findIdxStep_ge h2, findIdxStep_lt h3]
  · rw [findIdxStep_ge h1, findIdxStep_ge h2, findIdxStep_ge h3, findIdxStep_lt h4]
  · rw [findIdxStep_ge h1, findIdxStep_ge h2, findIdxStep_ge h3, findIdxStep_ge h4,
      findIdxStep_lt h5]
  · rw [findIdxStep_ge h1, findIdxStep_ge h2, findIdxStep_ge h3, findIdxStep_ge h4,
      findIdxStep_ge h5, findIdxStep_top]

theorem steppedColor_spending (colors : MapColors) (v : ℚ) (hv : 0 < v) :
    getSteppedColor colors (some spendingSteps) v =
      if v < 500000 then "#fdfde6".data else if v < 5000000 then "#d6ebca".data
      else if v < 50000000 then "#7fcdbb".data else if v < 250000000 then "#41b6c4".data
      else if v < 1000000000 then "#2c7fb8".data else "#253494".data := by
  unfold getSteppedColor
  rw [if_neg (by linarith)]
  unfold spendingSteps
  dsimp only
  split_ifs with h1 h2 h3 h4 h5
  · rw [findStep_lt h1]
  · rw [findStep_ge h1, findStep_lt h2]
  · rw [findStep_ge h1, findStep_ge h2, findStep_lt h3]
  · rw [findStep_ge h1, findStep_ge h2, findStep_ge h3, findStep_lt h4]
  · rw [findStep_ge h1, findStep_ge h2, findStep_ge h3, findStep_ge h4, findStep_lt h5]
  · rw [findStep_ge h1, findStep_ge h2, findStep_ge h3, findStep_ge h4, findStep_ge h5,
      findStep_top]

/-- C6: for the configured stepped scale (ascending thresholds ending at ∞),
`getSteppedColor` sends every value ≤ 0 to the configured zero colour, sends
every positive value to the colour of the first entry whose threshold
strictly exceeds it (no earlier entry's threshold does), and the assigned
bucket index is monotone: `v1 ≤ v2` never places `v1` later in the list than
`v2`. -/
theorem getSteppedColor_monotone_firstBucket :
    (∀ zc hc : Option Str, ∀ v : ℚ, v ≤ 0 →
        getSteppedColor ⟨zc, hc⟩ (some spendingSteps) v = zc.getD "#f0f0f0".data)
    ∧ (∀ colors : MapColors, ∀ v : ℚ, 0 < v →
        getSteppedColor colors (some spendingSteps) v
            = ((spendingSteps[stepIndex spendingSteps v]?).map ColorStep.color).getD []
          ∧ (spendingSteps[stepIndex spendingSteps v]?).elim False
              (fun s => (v : WithTop ℚ) < s.threshold)
          ∧ ∀ j < stepIndex spendingSteps v,
              (spendingSteps[j]?).elim True (fun s => s.threshold ≤ (v : WithTop ℚ)))
    ∧ (∀ v1 v2 : ℚ, 0 < v1 → v1 ≤ v2 →
        stepIndex spendingSteps v1 ≤ stepIndex spendingSteps v2) := by
  refine ⟨?_, ?_, ?_⟩
  · intro zc hc v hv
    unfold getSteppedColor
    rw [if_pos hv]
  · intro colors v hv
    rw [steppedColor_spending colors v hv, stepIndex_spending v]
    split_ifs with h1 h2 h3 h4 h5
    · refine ⟨by simp [spendingSteps],
        by show ((v : WithTop ℚ) < ((500000 : ℚ) : WithTop ℚ)); exact_mod_cast h1, ?_⟩
      intro j hj
      omega
    · refine ⟨by simp [spendingSteps],
        by show ((v : WithTop ℚ) < ((5000000 : ℚ) : WithTop ℚ)); exact_mod_cast h2, ?_⟩
      intro j hj
      interval_cases j
      · show (((500000 : ℚ) : WithTop ℚ) ≤ (v : WithTop ℚ))
        exact_mod_cast not_lt.mp h1
    · refine ⟨by simp [spendingSteps],
        by show ((v : WithTop ℚ) < ((50000000 : ℚ) : WithTop ℚ)); exact_mod_cast h3, ?_⟩
      intro j hj
      interval_cases j
      · show (((500000 : ℚ) : WithTop ℚ) ≤ (v : WithTop ℚ))
        exact_mod_cast not_lt.mp h1
      · show (((5000000 : ℚ) : WithTop ℚ) ≤ (v : WithTop ℚ))
        exact_mod_cast not_lt.mp h2
    · refine ⟨by simp [spendingSteps],
        by show ((v : WithTop ℚ) < ((250000000 : ℚ) : WithTop ℚ)); exact_mod_cast h4, ?_⟩
      intro j hj
      interval_cases j
      · show (((500000 : ℚ) : WithTop ℚ) ≤ (v : WithTop ℚ))
        exact_mod_cast not_lt.mp h1
      · show (((5000000 : ℚ) : WithTop ℚ) ≤ (v : WithTop ℚ))
        exact_mod_cast not_lt.mp h2
      · show (((50000000 : ℚ) : WithTop ℚ) ≤ (v : WithTop ℚ))
        exact_mod_cast not_lt.mp h3
    · refine ⟨by simp [spendingSteps],
        by show ((v : WithTop ℚ) < ((1000000000 : ℚ) : WithTop ℚ)); exact_mod_cast h5, ?_⟩
      intro j hj
      interval_cases j
      · show (((500000 : ℚ) : WithTop ℚ) ≤ (v : WithTop ℚ))
        exact_mod_cast not_lt.mp h1
      · show (((5000000 : ℚ) : WithTop ℚ) ≤ (v : WithTop ℚ))
        exact_mod_cast not_lt.mp h2
      · show (((50000000 : ℚ) : WithTop ℚ) ≤ (v : WithTop ℚ))
        exact_mod_cast not_lt.mp h3
      · show (((250000000 : ℚ) : WithTop ℚ) ≤ (v : WithTop ℚ))
        exact_mod_cast not_lt.mp h4
    · refine ⟨by simp [spendingSteps],
        by show ((v : WithTop ℚ) < (⊤ : WithTop ℚ)); exact WithTop.coe_lt_top v, ?_⟩
      intro j hj
      interval_cases j
      · show (((500000 : ℚ) : WithTop ℚ) ≤ (v : WithTop ℚ))
        exact_mod_cast not_lt.mp h1
      · show (((5000000 : ℚ) : WithTop ℚ) ≤ (v : WithTop ℚ))
        exact_mod_cast not_lt.mp h2
      · show (((50000000 : ℚ) : WithTop ℚ) ≤ (v : WithTop ℚ))
        exact_mod_cast not_lt.mp h3
      · show (((250000000 : ℚ) : WithTop ℚ) ≤ (v : WithTop ℚ))
        exact_mod_cast not_lt.mp h4
      · show (((1000000000 : ℚ) : WithTop ℚ) ≤ (v : WithTop ℚ))
        exact_mod_cast not_lt.mp h5
  · intro v1 v2 hv1 h12
    rw [stepIndex_spending v1, stepIndex_spending v2]
    split_ifs <;> linarith

theorem getSteppedColor_monotone_firstBucket_use :
    getSteppedColor ⟨some "#FFFFFF".data, some "#037CC2".data⟩ (some spendingSteps) 0
        = "#FFFFFF".data
      ∧ stepIndex spendingSteps 600000 ≤ stepIndex spendingSteps 7000000 := by
  constructor
  · exact getSteppedColor_monotone_firstBucket.1 (some "#FFFFFF".data)
      (some "#037CC2".data) 0 le_rfl
  · exact getSteppedColor_monotone_firstBucket.2.2 600000 7000000 (by norm_num) (by norm_num)

theorem addToGroup_ne_nil {α : Type} (acc : List (Str × List α)) (k : Str) (r : α) :
    addToGroup acc k r ≠ [] := by
  unfold addToGroup
  split
  · intro h
    rcases acc with _ | ⟨p, rest⟩
    · simp at *
    · simp at h
  · simp

theorem addToGroup_groups_ne_nil {α : Type} (acc : List (Str × List α)) (k : Str) (r : α)
    (h : ∀ p ∈ acc, p.2 ≠ []) : ∀ p ∈ addToGroup acc k r, p.2 ≠ [] := by
  unfold addToGroup
  split
  · intro p hp
    rcases List.mem_map.mp hp with ⟨q, hq, hfq⟩
    by_cases hk : q.1 = k
    · rw [if_pos hk] at hfq
      rw [← hfq]
      simp
    · rw [if_neg hk] at hfq
      rw [← hfq]
      exact h q hq
  · intro p hp
    rcases List.mem_append.mp hp with hp | hp
    · exact h p hp
    · simp at hp
      rw [hp]
      simp

theorem foldl_addToGroup_groups_ne_nil {α : Type} (key : α → Str) (l : List α) :
    ∀ acc, (∀ p ∈ acc, p.2 ≠ []) →
      ∀ p ∈ l.foldl (fun acc r => addToGroup acc (key r) r) acc, p.2 ≠ [] := by
  induction l with
  | nil => intro acc h; exact h
  | cons r rest ih =>
    intro acc h
    exact ih _ (addToGroup_groups_ne_nil acc (key r) r h)

theorem jsGroupBy_groups_ne_nil {α : Type} (key : α → Str) (l : List α) :
    ∀ p ∈ jsGroupBy key l, p.2 ≠ [] :=
  foldl_addToGroup_groups_ne_nil key l [] (by simp)

theorem foldl_addToGroup_ne_nil {α : Type} (key : α → Str) (l : List α) :
    ∀ acc, acc ≠ [] → l.foldl (fun acc r => addToGroup acc (key r) r) acc ≠ [] := by
  induction l with
  | nil => intro acc h; exact h
  | cons r rest ih =>
    intro acc _
    exact ih _ (addToGroup_ne_nil acc (key r) r)

theorem jsGroupBy_ne_nil {α : Type} (key : α → Str) (l : List α) (h : l ≠ []) :
    jsGroupBy key l ≠ [] := by
  rcases l with _ | ⟨r, rest⟩
  · exact absurd rfl h
  · exact foldl_addToGroup_ne_nil key rest _ (addToGroup_ne_nil [] (key r) r)

theorem ite_gt_eq_max (m n : Nat) : (if n > m then n else m) = max m n := by
  rw [max_def]
  split_ifs <;> omega

theorem foldl_natMax_le (cnts : List Nat) : ∀ m, m ≤ cnts.foldl max m := by
  induction cnts with
  | nil => intro m; exact le_rfl
  | cons c rest ih =>
    intro m
    exact le_trans (le_max_left m c) (ih (max m c))

theorem foldl_natMax_mem (cnts : List Nat) :
    ∀ m, cnts.foldl max m = m ∨ cnts.foldl max m ∈ cnts := by
  induction cnts with
  | nil => intro m; exact Or.inl rfl
  | cons c rest ih =>
    intro m
    rcases ih (max m c) with h | h
    · rcases max_choice m c with hm | hm
      · exact Or.inl (by rw [List.foldl_cons, h, hm])
      · refine Or.inr (by rw [List.foldl_cons, h, hm]; exact List.mem_cons_self c rest)
    · exact Or.inr (List.mem_cons_of_mem c h)

theorem foldl_natMax_ge_elem (cnts : List Nat) :
    ∀ m, ∀ c ∈ cnts, c ≤ cnts.foldl max m := by
  induction cnts with
  | nil => intro m c hc; simp at hc
  | cons c0 rest ih =>
    intro m c hc
    rcases List.mem_cons.mp hc with h | h
    · subst h
      exact le_trans (le_max_right m c) (foldl_natMax_le rest (max m c))
    · exact ih (max m c0) c h

theorem maxContracts_eq_foldl_max (cleanedData : List CleanedRow) :
    maxContracts cleanedData =
      ((districtCounts cleanedData).map (fun p => p.2)).foldl max 1 := by
  unfold maxContracts districtCounts
  rw [List.map_map, List.foldl_map]
  congr 1
  funext m p
  exact ite_gt_eq_max m p.2.length

/-- C5: when no cleaned record has a non-null GEOID (in particular on an
empty dataset), `calculateDistrictData` produces empty count and hover
mappings and `maxContracts = 1` (never 0); otherwise `maxContracts` is
exactly the largest per-GEOID count. -/
theorem maxContracts_guard (cleanedData : List CleanedRow) :
    (withGeoid cleanedData = [] →
      districtCounts cleanedData = [] ∧ hoverInfo cleanedData = []
        ∧ maxContracts cleanedData = 1)
    ∧ (withGeoid cleanedData ≠ [] →
      maxContracts cleanedData ∈ (districtCounts cleanedData).map (fun p => p.2)
        ∧ ∀ c ∈ (districtCounts cleanedData).map (fun p => p.2),
            c ≤ maxContracts cleanedData) := by
  constructor
  · intro h
    unfold districtCounts hoverInfo maxContracts jsGroupBy
    rw [h]
    exact ⟨rfl, rfl, rfl⟩
  · intro h
    have hne : jsGroupBy geoidKey (withGeoid cleanedData) ≠ [] :=
      jsGroupBy_ne_nil geoidKey (withGeoid cleanedData) h
    have hgrp := jsGroupBy_groups_ne_nil geoidKey (withGeoid cleanedData)
    have hcnt1 : ∀ c ∈ (districtCounts cleanedData).map (fun p => p.2), 1 ≤ c := by
      intro c hc
      rcases List.mem_map.mp hc with ⟨p, hp, hpc⟩
      unfold districtCounts at hp
      rcases List.mem_map.mp hp with ⟨q, hq, hqp⟩
      have hne2 := hgrp q hq
      rw [← hpc, ← hqp]
      have := List.length_pos.mpr hne2
      omega
    have hfold := maxContracts_eq_foldl_max cleanedData
    have hub : ∀ c ∈ (districtCounts cleanedData).map (fun p => p.2),
        c ≤ maxContracts cleanedData := by
      intro c hc
      rw [hfold]
      exact foldl_natMax_ge_elem _ 1 c hc
    refine ⟨?_, hub⟩
    rcases foldl_natMax_mem ((districtCounts cleanedData).map (fun p => p.2)) 1 with hm | hm
    · have hcne : (districtCounts cleanedData).map (fun p => p.2) ≠ [] := by
        unfold districtCounts
        simpa using hne
      rcases List.exists_mem_of_ne_nil _ hcne with ⟨c0, hc0⟩
      have h1 : c0 ≤ 1 := by
        have := hub c0 hc0
        rw [hfold, hm] at this
        exact this
      have h2 : 1 ≤ c0 := hcnt1 c0 hc0
      have : c0 = 1 := le_antisymm h1 h2
      rw [hfold, hm, ← this]
      exact hc0
    · rw [hfold]
      exact hm

theorem maxContracts_guard_use :
    maxContracts [] = 1 ∧ districtCounts [] = [] ∧ hoverInfo [] = [] :=
  ⟨((maxContracts_guard []).1 rfl).2.2, ((maxContracts_guard []).1 rfl).1,
    ((maxContracts_guard []).1 rfl).2.1⟩

/-- C2 (amended): in the JavaScript dashboard, rows whose `Nominal End Date`
equals `"total"` case-insensitively are removed by `processData` before every
aggregation: the cleaned data, and hence the district counts, hover map,
max count and both summary tables, are unchanged when such rows are deleted
from the input, and no cleaned row is a total row.  (The workflow's pandas
pipeline instead matches the sentinel exactly as `'Total'`; see the
counterexample.) -/
theorem totalRow_excluded (rawData : List RawRow) :
    processData rawData = processData (rawData.filter (fun r => ¬ isTotalRow r))
    ∧ (∀ c ∈ processData rawData, ¬ isTotalRow c.raw = true)
    ∧ districtCounts (processData rawData)
        = districtCounts (processData (rawData.filter (fun r => ¬ isTotalRow r)))
    ∧ maxContracts (processData rawData)
        = maxContracts (processData (rawData.filter (fun r => ¬ isTotalRow r)))
    ∧ hoverInfo (processData rawData)
        = hoverInfo (processData (rawData.filter (fun r => ¬ isTotalRow r)))
    ∧ districtsTableData (processData rawData)
        = districtsTableData (processData (rawData.filter (fun r => ¬ isTotalRow r)))
    ∧ recipientsTableData (processData rawData)
        = recipientsTableData (processData (rawData.filter (fun r => ¬ isTotalRow r))) := by
  have hmain : processData rawData
      = processData (rawData.filter (fun r => ¬ isTotalRow r)) := by
    unfold processData
    rw [List.filter_filter]
    simp
  refine ⟨hmain, ?_, by rw [hmain], by rw [hmain], by rw [hmain], by rw [hmain],
    by rw [hmain]⟩
  intro c hc
  unfold processData at hc
  have hc2 := List.mem_of_mem_filter hc
  rcases List.mem_map.mp hc2 with ⟨r, hr, hrc⟩
  have hr2 := List.of_mem_filter hr
  rw [← hrc]
  simpa using hr2

/-- C2 counterexample: the workflow's pandas pipeline truncates at the first
row whose end date is exactly `'Total'`; a row reading `'TOTAL'` — equal to
`"Total"` case-insensitively — is retained through the obligation cleaning
step and therefore feeds every aggregate, contradicting the claim that such
rows are excluded before any aggregation. -/
theorem totalRow_excluded_cex :
    py_obligations_cleaned
        [{ district := "CA-37".data, recipient := "Acme".data, awardId := "A1".data,
           source := [], startDate := [], nominalEndDate := "TOTAL".data,
           totalObligationsRaw := "$5".data, totalOutlaysRaw := [], description := [],
           url := [] }]
      = [{ district := "CA-37".data, recipient := "Acme".data, awardId := "A1".data,
           source := [], startDate := [], nominalEndDate := "TOTAL".data,
           totalObligationsRaw := "$5".data, totalOutlaysRaw := [], description := [],
           url := [] }]
    ∧ "TOTAL".data.map asciiLower = "total".data := by
  constructor
  · with_unfolding_all rfl
  · decide

theorem totalRow_excluded_use :
    processData
        [{ district := "CA-37".data, recipient := "Acme".data, awardId := "A1".data,
           source := [], startDate := [], nominalEndDate := "Total".data,
           totalObligationsRaw := "$5".data, totalOutlaysRaw := [], description := [],
           url := [] }]
      = processData [] := by
  have h := (totalRow_excluded
    [{ district := "CA-37".data, recipient := "Acme".data, awardId := "A1".data,
       source := [], startDate := [], nominalEndDate := "Total".data,
       totalObligationsRaw := "$5".data, totalOutlaysRaw := [], description := [],
       url := [] }]).1
  rw [h]
  congr 1

theorem groupOf_addToGroup {α : Type} (acc : List (Str × List α)) (k' : Str) (r : α)
    (k : Str) :
    groupOf (addToGroup acc k' r) k
      = if k = k' then groupOf acc k ++ [r] else groupOf acc k := by
  unfold addToGroup groupOf
  by_cases hany : acc.any (fun p => decide (p.1 = k')) = true
  · rw [if_pos hany]
    rw [List.find?_map]
    have hkey : ((fun p : Str × List α => decide (p.1 = k)) ∘
        fun p => if p.1 = k' then (p.1, p.2 ++ [r]) else p)
          = fun p : Str × List α => decide (p.1 = k) := by
      funext p
      by_cases hp : p.1 = k'
      · simp [hp]
      · simp [hp]
    rw [hkey]
    rcases hfind : List.find? (fun p => decide (p.1 = k)) acc with _ | p
    · have hnone : ∀ x ∈ acc, ¬ (x.1 = k) := by
        intro x hx
        have := List.find?_eq_none.mp hfind x hx
        simpa using this
      by_cases hkk : k = k'
      · subst hkk
        rcases List.any_eq_true.mp hany with ⟨p, hp, hpk⟩
        simp at hpk
        exact absurd hpk (hnone p hp)
      · simp [hfind, hkk]
    · have hpk : p.1 = k := by
        have := List.find?_some hfind
        simpa using this
      by_cases hkk : k = k'
      · subst hkk
        simp [hfind, hpk]
      · have hne : ¬ (p.1 = k') := by rw [hpk]; exact hkk
        simp [hfind, hne, if_neg hkk]
  · rw [if_neg hany]
    rw [List.find?_append]
    have hsingle : List.find? (fun p : Str × List α => decide (p.1 = k)) [(k', [r])]
        = if k = k' then some (k', [r]) else none := by
      by_cases hkk : k = k'
      · subst hkk
        simp [List.find?]
      · have : ¬ (k' = k) := fun h => hkk h.symm
        simp [List.find?, this, hkk]
    rw [hsingle]
    rcases hfind : List.find? (fun p => decide (p.1 = k)) acc with _ | p
    · by_cases hkk : k = k'
      · subst hkk
        simp [hfind, Option.or]
      · simp [hfind, Option.or, hkk]
    · have hpk : p.1 = k := by
        have := List.find?_some hfind
        simpa using this
      have hpm : p ∈ acc := List.mem_of_find?_eq_some hfind
      by_cases hkk : k = k'
      · exfalso
        have hall : ∀ x ∈ acc, ¬ (x.1 = k') := by
          intro x hx hxk
          exact hany (List.any_eq_true.mpr ⟨x, hx, by simpa using hxk⟩)
        exact hall p hpm (by rw [hpk, hkk])
      · simp [hfind, Option.or, hkk]

theorem groupOf_foldl {α : Type} (key : α → Str) (l : List α) :
    ∀ (acc : List (Str × List α)) (k : Str),
      groupOf (l.foldl (fun acc r => addToGroup acc (key r) r) acc) k
        = groupOf acc k ++ l.filter (fun r => decide (key r = k)) := by
  induction l with
  | nil => intro acc k; simp
  | cons r rest ih =>
    intro acc k
    rw [List.foldl_cons, ih, groupOf_addToGroup]
    by_cases hk : k = key r
    · rw [if_pos hk, List.filter_cons, if_pos (by simp [hk]), List.append_assoc]
      rfl
    · rw [if_neg hk, List.filter_cons, if_neg (by simpa using Ne.symm hk)]

theorem groupOf_jsGroupBy {α : Type} (key : α → Str) (l : List α) (k : Str) :
    groupOf (jsGroupBy key l) k = l.filter (fun r => decide (key r = k)) := by
  unfold jsGroupBy
  rw [groupOf_foldl]
  simp [groupOf]

/-- **C4.** For every permutation of the cleaned record sequence, the three
groupings (by GEOID, by district label, by recipient) give each key a group
holding the same rows up to permutation, and hence an identical per-key count
mapping. The per-key obligation-sum mappings are NOT invariant: the program
sums IEEE-754 doubles, whose addition is not associative, so reordering can
change a group's total in the last place (see the counterexample:
$0.10 + $0.20 + $0.30 reordered). -/
theorem aggregation_permutation_invariant (l1 l2 : List CleanedRow) (hperm : l1.Perm l2) :
    ∀ k : Str,
      ((groupOf (jsGroupBy geoidKey (withGeoid l1)) k).Perm
          (groupOf (jsGroupBy geoidKey (withGeoid l2)) k))
      ∧ (groupOf (jsGroupBy geoidKey (withGeoid l1)) k).length
          = (groupOf (jsGroupBy geoidKey (withGeoid l2)) k).length
      ∧ ((groupOf (jsGroupBy (fun r => r.raw.district) l1) k).Perm
          (groupOf (jsGroupBy (fun r => r.raw.district) l2) k))
      ∧ (groupOf (jsGroupBy (fun r => r.raw.district) l1) k).length
          = (groupOf (jsGroupBy (fun r => r.raw.district) l2) k).length
      ∧ ((groupOf (jsGroupBy (fun r => r.raw.recipient) l1) k).Perm
          (groupOf (jsGroupBy (fun r => r.raw.recipient) l2) k))
      ∧ (groupOf (jsGroupBy (fun r => r.raw.recipient) l1) k).length
          = (groupOf (jsGroupBy (fun r => r.raw.recipient) l2) k).length := by
  intro k
  have hgeo : (withGeoid l1).Perm (withGeoid l2) := hperm.filter _
  refine ⟨?_, ?_, ?_, ?_, ?_, ?_⟩ <;> rw [groupOf_jsGroupBy, groupOf_jsGroupBy]
  · exact hgeo.filter _
  · exact (hgeo.filter _).length_eq
  · exact hperm.filter _
  · exact (hperm.filter _).length_eq
  · exact hperm.filter _
  · exact (hperm.filter _).length_eq

theorem aggregation_permutation_invariant_use :
    (groupOf (jsGroupBy (fun r => r.raw.district)
        ([⟨⟨"TX-2".data, "A".data, [], [], [], [], [], [], [], []⟩,
            some (JsNum.val 5), none, none⟩,
          ⟨⟨"AL-1".data, "B".data, [], [], [], [], [], [], [], []⟩,
            some (JsNum.val 3), none, none⟩] : List CleanedRow)) "TX-2".data).length
      = (groupOf (jsGroupBy (fun r => r.raw.district)
        ([⟨⟨"AL-1".data, "B".data, [], [], [], [], [], [], [], []⟩,
            some (JsNum.val 3), none, none⟩,
          ⟨⟨"TX-2".data, "A".data, [], [], [], [], [], [], [], []⟩,
            some (JsNum.val 5), none, none⟩] : List CleanedRow)) "TX-2".data).length :=
  ((aggregation_permutation_invariant _ _
    (List.Perm.swap
      (⟨⟨"AL-1".data, "B".data, [], [], [], [], [], [], [], []⟩,
          some (JsNum.val 3), none, none⟩ : CleanedRow)
      (⟨⟨"TX-2".data, "A".data, [], [], [], [], [], [], [], []⟩,
          some (JsNum.val 5), none, none⟩ : CleanedRow) [])) "TX-2".data).2.2.2.1

set_option maxRecDepth 4000 in
/-- Counterexample to C4 as stated: three awards of $0.10, $0.20 and $0.30 in
the same district. Summed with binary64 addition in file order the group's
total is 0.6000000000000001 (= 1351079888211149/2^51), reversed it is the
double 0.6 (= 5404319552844595/2^53): the per-key sum mapping differs between
the two permutations. -/
theorem aggregation_sum_order_cex :
    [cexDime, cexTwoDimes, cexThreeDimes].Perm [cexThreeDimes, cexTwoDimes, cexDime]
    ∧ fpSumByObl (groupOf (jsGroupBy (fun r => r.raw.district)
          [cexDime, cexTwoDimes, cexThreeDimes]) "TX-2".data)
        = JsNum.val (1351079888211149/2251799813685248)
    ∧ fpSumByObl (groupOf (jsGroupBy (fun r => r.raw.district)
          [cexThreeDimes, cexTwoDimes, cexDime]) "TX-2".data)
        = JsNum.val (5404319552844595/9007199254740992)
    ∧ ¬ (JsNum.val ((1351079888211149 : ℚ)/2251799813685248)
        = JsNum.val ((5404319552844595 : ℚ)/9007199254740992)) := by
  refine ⟨(List.reverse_perm [cexDime, cexTwoDimes, cexThreeDimes]).symm, ?_, ?_, ?_⟩
  · rw [groupOf_jsGroupBy]
    with_unfolding_all rfl
  · rw [groupOf_jsGroupBy]
    with_unfolding_all rfl
  · intro h
    exact absurd (JsNum.val.inj h) (by norm_num)

theorem splitChar_not_mem {sep : Char} {l : Str} (h : sep ∉ l) : splitChar sep l = [l] := by
  induction l with
  | nil => rfl
  | cons c rest ih =>
    have hc : ¬ (c = sep) := fun hc => h (hc ▸ List.mem_cons_self c rest)
    have hr : sep ∉ rest := fun hr => h (List.mem_cons_of_mem c hr)
    simp only [splitChar]
    rw [if_neg hc, ih hr]

theorem splitChar_append {sep : Char} {a : Str} (h : sep ∉ a) (b : Str) :
    splitChar sep (a ++ sep :: b) = a :: splitChar sep b := by
  induction a with
  | nil =>
    simp [splitChar]
  | cons c rest ih =>
    have hc : ¬ (c = sep) := fun hc => h (hc ▸ List.mem_cons_self c rest)
    have hr : sep ∉ rest := fun hr => h (List.mem_cons_of_mem c hr)
    simp only [List.cons_append, splitChar, List.append_eq]
    rw [if_neg hc, ih hr]

theorem asciiUpper_digit {c : Char} (h : isDigitC c = true) : asciiUpper c = c := by
  simp only [isDigitC, Bool.and_eq_true, decide_eq_true_eq] at h
  unfold asciiUpper
  rw [if_neg]
  intro hcon
  omega

theorem map_asciiUpper_digits {l : Str} (h : ∀ c ∈ l, isDigitC c = true) :
    l.map asciiUpper = l := by
  induction l with
  | nil => rfl
  | cons c rest ih =>
    rw [List.map_cons, asciiUpper_digit (h c (List.mem_cons_self c rest)),
      ih (fun x hx => h x (List.mem_cons_of_mem c hx))]

theorem takeWhile_all {p : Char → Bool} :
    ∀ l : Str, (∀ c ∈ l, p c = true) → l.takeWhile p = l := by
  intro l h
  induction l with
  | nil => rfl
  | cons c rest ih =>
    have h1 := h c (List.mem_cons_self c rest)
    simp [List.takeWhile_cons, h1, ih (fun x hx => h x (List.mem_cons_of_mem c hx))]

theorem digit_not_ws {c : Char} (h : isDigitC c = true) : jsWs c = false := by
  simp only [isDigitC, Bool.and_eq_true, decide_eq_true_eq] at h
  simp only [jsWs, Bool.or_eq_false_iff, decide_eq_false_iff_not]
  refine ⟨⟨⟨⟨⟨?_, ?_⟩, ?_⟩, ?_⟩, ?_⟩, ?_⟩ <;>
    (intro hc; subst hc; exact absurd h.1 (by decide))

theorem jsParseInt_digits (dd : Str) (hne : dd ≠ []) (hdig : ∀ c ∈ dd, isDigitC c = true) :
    jsParseInt dd = some ((digitsToNat dd : ℤ)) := by
  rcases dd with _ | ⟨d, rest⟩
  · exact absurd rfl hne
  have hd : isDigitC d = true := hdig d (List.mem_cons_self d rest)
  have hdws : jsWs d = false := digit_not_ws hd
  have hplus : ¬ (d = '+') := by
    intro hc; subst hc; exact absurd hd (by decide)
  have hminus : ¬ (d = '-') := by
    intro hc; subst hc; exact absurd hd (by decide)
  have htake : List.takeWhile isDigitC (d :: rest) = d :: rest := takeWhile_all _ hdig
  unfold jsParseInt
  have hdrop : List.dropWhile jsWs (d :: rest) = d :: rest := by
    rw [List.dropWhile_cons, hdws]
    simp
  rw [hdrop]
  dsimp only
  split
  · rename_i r heq
    exact absurd (List.cons.inj heq).1 hplus
  · rename_i r heq
    exact absurd (List.cons.inj heq).1 hminus
  · rw [htake, if_neg (by simp)]

theorem lookupFips_mem {k fips : Str} (h : lookupFips k = some fips) :
    ∃ p ∈ STATE_FIPS_MAP, p.1 = k ∧ p.2 = fips := by
  unfold lookupFips at h
  rcases hfind : STATE_FIPS_MAP.find? (fun p => decide (p.1 = k)) with _ | p
  · rw [hfind] at h; simp at h
  · rw [hfind] at h
    simp at h
    refine ⟨p, List.mem_of_find?_eq_some hfind, ?_, h⟩
    have := List.find?_some hfind
    simpa using this

theorem fips_table_shape :
    ∀ p ∈ STATE_FIPS_MAP, (p.2).length = 2 ∧ '-' ∉ p.1 ∧ 'Z' ∉ p.2 := by decide

theorem natDigits_len_le_two : ∀ n < 100, (natDigits n).length ≤ 2 := by decide

theorem padStart_length {l : Str} (h : l.length ≤ 2) (c : Char) :
    (padStart l 2 c).length = 2 := by
  unfold padStart
  rw [List.length_append, List.length_replicate]
  omega

theorem getGeoid_digits (ss dd fips : Str)
    (hfips : lookupFips (ss.map asciiUpper) = some fips)
    (hss : '-' ∉ ss)
    (hne : dd ≠ []) (hdig : ∀ c ∈ dd, isDigitC c = true) :
    getGeoidFromDistrict (ss ++ '-' :: dd)
      = some (fips ++ padStart (natDigits (digitsToNat dd)) 2 '0') := by
  have hdd : '-' ∉ dd := by
    intro hmem
    exact absurd (hdig '-' hmem) (by decide)
  have hsplit : splitChar '-' (ss ++ '-' :: dd) = [ss, dd] := by
    rw [splitChar_append hss, splitChar_not_mem hdd]
  have hguard : ¬ (ss ++ '-' :: dd = [] ∨ ¬ '-' ∈ ss ++ '-' :: dd) := by
    push_neg
    exact ⟨by simp, List.mem_append_right _ (List.mem_cons_self _ _)⟩
  unfold getGeoidFromDistrict
  rw [if_neg hguard, hsplit]
  simp only [List.length_cons, List.length_nil, List.getD, List.get?_cons_zero,
    List.get?_cons_succ, Option.getD_some, ne_eq, not_true, if_false]
  rw [hfips, map_asciiUpper_digits hdig]
  dsimp only
  by_cases h00 : dd = "00".data
  · subst h00
    rw [if_pos (Or.inr rfl)]
    have hpad : padStart (natDigits (digitsToNat "00".data)) 2 '0' = "00".data := by decide
    rw [hpad]
  · have hzz : ¬ (dd = "ZZ".data) := by
      intro hc
      subst hc
      exact absurd (hdig 'Z' (by decide)) (by decide)
    rw [if_neg (by tauto)]
    rw [jsParseInt_digits dd hne hdig]
    have hint : intToStr ((digitsToNat dd : ℤ)) = natDigits (digitsToNat dd) := by
      unfold intToStr
      rw [if_neg (not_lt.mpr (Int.natCast_nonneg _))]
      rw [Int.toNat_natCast]
    dsimp only
    rw [hint]

theorem getGeoid_split_form (ss dd : Str) (hss : '-' ∉ ss) (hdd : '-' ∉ dd) :
    getGeoidFromDistrict (ss ++ '-' :: dd)
      = (match lookupFips (ss.map asciiUpper) with
         | none => none
         | some stateFips =>
           if dd.map asciiUpper = "ZZ".data ∨ dd.map asciiUpper = "00".data then
             some (stateFips ++ dd.map asciiUpper)
           else
             match jsParseInt (dd.map asciiUpper) with
             | none => none
             | some i => some (stateFips ++ padStart (intToStr i) 2 '0')) := by
  have hsplit : splitChar '-' (ss ++ '-' :: dd) = [ss, dd] := by
    rw [splitChar_append hss, splitChar_not_mem hdd]
  have hguard : ¬ (ss ++ '-' :: dd = [] ∨ ¬ '-' ∈ ss ++ '-' :: dd) := by
    push_neg
    exact ⟨by simp, List.mem_append_right _ (List.mem_cons_self _ _)⟩
  unfold getGeoidFromDistrict
  rw [if_neg hguard, hsplit]
  simp only [List.length_cons, List.length_nil, List.getD, List.get?_cons_zero,
    List.get?_cons_succ, Option.getD_some, ne_eq, not_true, if_false]

theorem getGeoid_zz (ss dd fips : Str)
    (hfips : lookupFips (ss.map asciiUpper) = some fips)
    (hss : '-' ∉ ss) (hdd : '-' ∉ dd)
    (hzz : dd.map asciiUpper = "ZZ".data) :
    getGeoidFromDistrict (ss ++ '-' :: dd) = some (fips ++ "ZZ".data) := by
  rw [getGeoid_split_form ss dd hss hdd, hfips]
  dsimp only
  rw [hzz, if_pos (Or.inl rfl)]

theorem getGeoid_no_dash (l : Str) (h : '-' ∉ l) : getGeoidFromDistrict l = none := by
  unfold getGeoidFromDistrict
  rw [if_pos (Or.inr h)]

theorem getGeoid_parts_ne_two (l : Str) (h : (splitChar '-' l).length ≠ 2) :
    getGeoidFromDistrict l = none := by
  unfold getGeoidFromDistrict
  by_cases hg : l = [] ∨ ¬ '-' ∈ l
  · rw [if_pos hg]
  · rw [if_neg hg]
    simp [h]

theorem getGeoid_unknown_state (ss dd : Str) (hss : '-' ∉ ss) (hdd : '-' ∉ dd)
    (hfips : lookupFips (ss.map asciiUpper) = none) :
    getGeoidFromDistrict (ss ++ '-' :: dd) = none := by
  rw [getGeoid_split_form ss dd hss hdd, hfips]

theorem getGeoid_parse_fail (ss dd : Str) (hss : '-' ∉ ss) (hdd : '-' ∉ dd)
    (hzz : ¬ (dd.map asciiUpper = "ZZ".data)) (h00 : ¬ (dd.map asciiUpper = "00".data))
    (hp : jsParseInt (dd.map asciiUpper) = none) :
    getGeoidFromDistrict (ss ++ '-' :: dd) = none := by
  rw [getGeoid_split_form ss dd hss hdd]
  rcases hels : lookupFips (ss.map asciiUpper) with _ | fips
  · rfl
  · dsimp only
    rw [if_neg (by tauto), hp]

/-- C1 (amended): for every known state abbreviation (case-insensitively) and
every district part made of decimal digits, `getGeoidFromDistrict` returns the
state FIPS code followed by the zero-padded district number — a 4-character
string whenever the number is below 100 — and preserves a `ZZ` suffix;
`geoid("CA-37") = "0637"`, `geoid("CA-0") = "0600"`, `geoid("ZZ-ZZ") = null`.
Null is returned exactly for: no separator, a split of other than two parts,
an unknown state abbreviation, or a district part on which `parseInt` fails
(no leading digits after optional sign).  District numbers of 100 or more are
NOT rejected: they produce a longer string (see the counterexample), which is
the one point where the original claim fails. -/
theorem getGeoidFromDistrict_spec :
    (∀ ss dd fips : Str, lookupFips (ss.map asciiUpper) = some fips → '-' ∉ ss →
        dd ≠ [] → (∀ c ∈ dd, isDigitC c = true) →
        getGeoidFromDistrict (ss ++ '-' :: dd)
            = some (fips ++ padStart (natDigits (digitsToNat dd)) 2 '0')
          ∧ (digitsToNat dd < 100 →
              (fips ++ padStart (natDigits (digitsToNat dd)) 2 '0').length = 4))
    ∧ (∀ ss dd fips : Str, lookupFips (ss.map asciiUpper) = some fips → '-' ∉ ss →
        '-' ∉ dd → dd.map asciiUpper = "ZZ".data →
        getGeoidFromDistrict (ss ++ '-' :: dd) = some (fips ++ "ZZ".data)
          ∧ (fips ++ "ZZ".data).length = 4)
    ∧ getGeoidFromDistrict "CA-37".data = some "0637".data
    ∧ getGeoidFromDistrict "CA-0".data = some "0600".data
    ∧ getGeoidFromDistrict "ca-37".data = some "0637".data
    ∧ getGeoidFromDistrict "ZZ-ZZ".data = none
    ∧ (∀ l : Str, '-' ∉ l → getGeoidFromDistrict l = none)
    ∧ (∀ l : Str, (splitChar '-' l).length ≠ 2 → getGeoidFromDistrict l = none)
    ∧ (∀ ss dd : Str, '-' ∉ ss → '-' ∉ dd → lookupFips (ss.map asciiUpper) = none →
        getGeoidFromDistrict (ss ++ '-' :: dd) = none)
    ∧ (∀ ss dd : Str, '-' ∉ ss → '-' ∉ dd → ¬ (dd.map asciiUpper = "ZZ".data) →
        ¬ (dd.map asciiUpper = "00".data) → jsParseInt (dd.map asciiUpper) = none →
        getGeoidFromDistrict (ss ++ '-' :: dd) = none) := by
  have hflen : ∀ {k fips : Str}, lookupFips k = some fips → fips.length = 2 := by
    intro k fips h
    rcases lookupFips_mem h with ⟨p, hp, _, hpf⟩
    rw [← hpf]
    exact (fips_table_shape p hp).1
  refine ⟨?_, ?_, by decide, by decide, by decide, by decide, getGeoid_no_dash,
    getGeoid_parts_ne_two, getGeoid_unknown_state, getGeoid_parse_fail⟩
  · intro ss dd fips hfips hss hne hdig
    refine ⟨getGeoid_digits ss dd fips hfips hss hne hdig, fun hlt => ?_⟩
    rw [List.length_append, hflen hfips, padStart_length (natDigits_len_le_two _ hlt) '0']
  · intro ss dd fips hfips hss hdd hzz
    refine ⟨getGeoid_zz ss dd fips hfips hss hdd hzz, ?_⟩
    rw [List.length_append, hflen hfips]
    decide

/-- C1 counterexample: `"CA-100"` has a known state and a district part that
is an integer not in [0, 99] and not `"ZZ"`, so the claim requires null; the
code instead returns the 5-character string `"06100"`. -/
theorem getGeoidFromDistrict_cex :
    getGeoidFromDistrict "CA-100".data = some "06100".data
    ∧ ¬ (getGeoidFromDistrict "CA-100".data = none)
    ∧ ("06100".data).length ≠ 4 := by
  exact ⟨by decide, by decide, by decide⟩

theorem getGeoidFromDistrict_spec_use :
    getGeoidFromDistrict "CA37".data = none
    ∧ getGeoidFromDistrict ("CA".data ++ '-' :: "37".data)
        = some ("06".data ++ padStart (natDigits (digitsToNat "37".data)) 2 '0') := by
  constructor
  · exact getGeoidFromDistrict_spec.2.2.2.2.2.2.1 "CA37".data (by decide)
  · exact (getGeoidFromDistrict_spec.1 "CA".data "37".data "06".data (by decide) (by decide)
      (by decide) (by decide)).1

theorem takeWhile_digits_append (d r2 : Str) (hdig : ∀ c ∈ d, isDigitC c = true) :
    List.takeWhile isDigitC (d ++ '.' :: r2) = d := by
  induction d with
  | nil =>
    rw [List.nil_append, List.takeWhile_cons, show isDigitC '.' = false from by decide]
    simp
  | cons c rest ih =>
    have h1 := hdig c (List.mem_cons_self c rest)
    simp [List.cons_append, List.takeWhile_cons, h1,
      ih (fun x hx => hdig x (List.mem_cons_of_mem c hx))]

theorem jsParseFloat_digits_dot (d e : Str) (hd : d ≠ [])
    (hdig : ∀ c ∈ d, isDigitC c = true) (hedig : ∀ c ∈ e, isDigitC c = true) :
    jsParseFloat (d ++ '.' :: e)
      = JsNum.val ((digitsToNat d : ℚ) + (digitsToNat e : ℚ) / (10 : ℚ) ^ e.length) := by
  rcases d with _ | ⟨d0, drest⟩
  · exact absurd rfl hd
  have hd0 : isDigitC d0 = true := hdig d0 (List.mem_cons_self d0 drest)
  have hws : jsWs d0 = false := digit_not_ws hd0
  unfold jsParseFloat
  have hdrop : List.dropWhile jsWs ((d0 :: drest) ++ '.' :: e) = (d0 :: drest) ++ '.' :: e := by
    rw [List.cons_append, List.dropWhile_cons, hws]
    simp
  rw [hdrop]
  dsimp only
  split
  · rename_i r heq
    rw [List.cons_append] at heq
    exact absurd (List.cons.inj heq).1 (by intro hc; subst hc; exact absurd hd0 (by decide))
  · rename_i r heq
    rw [List.cons_append] at heq
    exact absurd (List.cons.inj heq).1 (by intro hc; subst hc; exact absurd hd0 (by decide))
  · unfold parseFloatUnsigned
    have hinf : leadsWith "Infinity".data ((d0 :: drest) ++ '.' :: e) = false := by
      rw [List.cons_append]
      simp only [leadsWith]
      have : ¬ ('I' = d0) := by
        intro hc; subst hc; exact absurd hd0 (by decide)
      simp [this]
    rw [hinf]
    simp only [Bool.false_eq_true, if_false]
    rw [takeWhile_digits_append _ _ hdig]
    rw [if_neg (by simp)]
    rw [List.drop_left]
    split
    · rename_i r2 heq
      have he : e = r2 := (List.cons.inj heq).2
      subst he
      rw [takeWhile_all e hedig, List.drop_length]
      unfold floatFinish parseExp
      simp only [zpow_zero, mul_one]
      simp
    · rename_i hcon
      exact (hcon e rfl).elim

theorem digit_not_junk {c : Char} (h : isDigitC c = true) : currencyJunk c = false := by
  simp only [isDigitC, Bool.and_eq_true, decide_eq_true_eq] at h
  simp only [currencyJunk, Bool.or_eq_false_iff, decide_eq_false_iff_not]
  refine ⟨⟨?_, ?_⟩, ?_⟩
  · intro hc; subst hc; exact absurd h.1 (by decide)
  · intro hc; subst hc; exact absurd h.1 (by decide)
  · exact digit_not_ws (by simp [isDigitC]; omega)

theorem twoDigits_facts :
    ∀ c < 100, (∀ ch ∈ padStart (natDigits c) 2 '0', isDigitC ch = true)
      ∧ digitsToNat (padStart (natDigits c) 2 '0') = c
      ∧ (padStart (natDigits c) 2 '0').length = 2 := by decide

/-- C3 (amended): currency parsing strips `[$,\s]` everywhere and applies
`parseFloat` to the remainder: every properly formatted `"$1,234.00"` string
round-trips to its exact decimal value, and the parse returns null — never
zero and never NaN — exactly when `parseFloat` yields NaN on the cleaned
string (no parseable numeric prefix; in particular for `""` and `"N/A"`).  A
cleaned string with a numeric prefix followed by junk, such as `"12abc"`,
parses to the prefix's value instead of null, which is where the original
claim's `not numeric → null` direction fails. -/
theorem parseCurrency_roundtrip_null :
    (∀ (ds : Str) (c : Nat), c < 100 → ds.filter isDigitC ≠ [] →
        (∀ ch ∈ ds, isDigitC ch = true ∨ ch = ',') →
        parseCurrencyStr ('$' :: ds ++ '.' :: padStart (natDigits c) 2 '0')
          = some (JsNum.val ((digitsToNat (ds.filter isDigitC) : ℚ) + (c : ℚ) / 100)))
    ∧ (∀ s : Str, parseCurrencyStr s = none ↔
        jsParseFloat (s.filter (fun ch => ¬ currencyJunk ch)) = JsNum.nan)
    ∧ parseCurrencyStr [] = none
    ∧ parseCurrencyStr "N/A".data = none
    ∧ (∀ (s : Str) (n : JsNum), parseCurrencyStr s = some n → n ≠ JsNum.nan) := by
  refine ⟨?_, ?_, rfl, by decide, ?_⟩
  · intro ds c hc hne hds
    obtain ⟨hcd, hcv, hcl⟩ := twoDigits_facts c hc
    have hclean : ('$' :: ds ++ '.' :: padStart (natDigits c) 2 '0').filter
        (fun ch => ¬ currencyJunk ch)
          = ds.filter isDigitC ++ '.' :: padStart (natDigits c) 2 '0' := by
      rw [List.cons_append, List.filter_cons, List.filter_append]
      rw [show (decide ¬ (currencyJunk '$' = true)) = false from by decide]
      simp only [Bool.false_eq_true, if_false]
      congr 1
      · apply List.filter_congr
        intro ch hch
        rcases hds ch hch with h | h
        · simp [digit_not_junk h, h]
        · subst h
          decide
      · rw [List.filter_cons]
        rw [show (decide ¬ (currencyJunk '.' = true)) = true from by decide]
        simp only [if_true]
        congr 1
        rw [List.filter_eq_self.mpr]
        intro ch hch
        simp [digit_not_junk (hcd ch hch)]
    have heval := jsParseFloat_digits_dot (ds.filter isDigitC)
      (padStart (natDigits c) 2 '0') hne (fun ch hch => List.of_mem_filter hch) hcd
    unfold parseCurrencyStr
    rw [if_neg (by simp)]
    simp only [hclean, heval, hcv, hcl]
    norm_num
  · intro s
    by_cases hs : s = []
    · subst hs
      constructor
      · intro _
        rfl
      · intro _
        rfl
    · unfold parseCurrencyStr
      rw [if_neg hs]
      dsimp only
      rcases hpf : jsParseFloat (s.filter (fun ch => ¬ currencyJunk ch)) with _ | _ | _ | q <;>
        simp
  · intro s n h hc
    subst hc
    exact parseCurrencyStr_ne_nan s h

/-- C3 counterexample: `"12abc"` cleans to itself, is not a decimal numeral
(it contains letters), yet `parseCurrency` returns 12 rather than null,
because `parseFloat` accepts the longest numeric prefix. -/
theorem parseCurrency_cex :
    parseCurrencyStr "12abc".data = some (JsNum.val 12)
    ∧ ¬ (∀ ch ∈ "12abc".data.filter (fun ch => ¬ currencyJunk ch),
          isDigitC ch = true ∨ ch = '.') := by
  constructor
  · with_unfolding_all rfl
  · decide

theorem parseCurrency_roundtrip_null_use :
    parseCurrencyStr ('$' :: "1,234".data ++ '.' :: padStart (natDigits 0) 2 '0')
        = some (JsNum.val ((digitsToNat ("1,234".data.filter isDigitC) : ℚ) + (0 : ℚ) / 100))
      ∧ parseCurrencyStr "N/A".data = none :=
  ⟨parseCurrency_roundtrip_null.1 "1,234".data 0 (by norm_num) (by decide) (by decide),
    parseCurrency_roundtrip_null.2.2.2.1⟩

theorem aux_nil (inQ : Bool) (cur : Str) : parseCSVLineAux [] inQ cur = [cur] := rfl

theorem aux_escaped (rest : Str) (cur : Str) :
    parseCSVLineAux ('"' :: '"' :: rest) true cur
      = parseCSVLineAux rest true (cur ++ ['"']) := rfl

theorem aux_comma (rest : Str) (cur : Str) :
    parseCSVLineAux (',' :: rest) false cur = cur :: parseCSVLineAux rest false [] := rfl

theorem aux_quote (rest : Str) (inQ : Bool) (cur : Str)
    (h : ¬ (inQ = true ∧ rest.head? = some '"')) :
    parseCSVLineAux ('"' :: rest) inQ cur = parseCSVLineAux rest (!inQ) cur := by
  rw [parseCSVLineAux.eq_def]
  split
  · rename_i heq
    exact absurd heq (by simp)
  · rename_i heq
    exact absurd ⟨rfl, by rw [(List.cons.inj heq).2]; rfl⟩ h
  · rename_i heq hno
    rw [(List.cons.inj heq).2]
  · rename_i heq
    exact absurd (List.cons.inj heq).1 (by decide)
  · rename_i hq heq hn1 hn2
    exact (hq (List.cons.inj heq).1.symm).elim

theorem aux_other (c : Char) (rest : Str) (inQ : Bool) (cur : Str)
    (hq : ¬ c = '"') (hcm : ¬ (c = ',' ∧ inQ = false)) :
    parseCSVLineAux (c :: rest) inQ cur = parseCSVLineAux rest inQ (cur ++ [c]) := by
  rw [parseCSVLineAux.eq_def]
  split
  · rename_i heq
    exact absurd heq (by simp)
  · rename_i heq
    exact absurd (List.cons.inj heq).1 hq
  · rename_i heq hno
    exact absurd (List.cons.inj heq).1 hq
  · rename_i heq
    exact absurd ⟨(List.cons.inj heq).1, rfl⟩ hcm
  · rename_i hq2 heq hn1 hn2
    rw [(List.cons.inj heq).1, (List.cons.inj heq).2]

theorem aux_passthrough (f : Str) (hq : '"' ∉ f) :
    ∀ (rest cur : Str),
      parseCSVLineAux (f ++ rest) true cur = parseCSVLineAux rest true (cur ++ f) := by
  induction f with
  | nil => intro rest cur; simp
  | cons c fr ih =>
    intro rest cur
    have hc : ¬ (c = '"') := fun hcc => hq (hcc ▸ List.mem_cons_self c fr)
    have hfr : '"' ∉ fr := fun hin => hq (List.mem_cons_of_mem c hin)
    rw [List.cons_append, aux_other c (fr ++ rest) true cur hc (by simp)]
    rw [ih hfr rest (cur ++ [c])]
    congr 1
    simp

theorem parseCSVLine_quoted (f : Str) (hq : '"' ∉ f) :
    parseCSVLine ('"' :: f ++ ['"']) = [f] := by
  show parseCSVLineAux ('"' :: (f ++ ['"'])) false [] = [f]
  rw [aux_quote (f ++ ['"']) false [] (by simp)]
  show parseCSVLineAux (f ++ ['"']) true [] = [f]
  rw [aux_passthrough f hq ['"'] []]
  show parseCSVLineAux ('"' :: []) true ([] ++ f) = [f]
  rw [aux_quote [] true ([] ++ f) (by simp)]
  show parseCSVLineAux [] false ([] ++ f) = [f]
  rw [aux_nil]
  simp

theorem parseCSVLine_escaped (a b : Str) (ha : '"' ∉ a) (hb : '"' ∉ b) :
    parseCSVLine ('"' :: (a ++ ('"' :: '"' :: (b ++ ['"'])))) = [a ++ '"' :: b] := by
  show parseCSVLineAux ('"' :: (a ++ ('"' :: '"' :: (b ++ ['"'])))) false [] = [a ++ '"' :: b]
  rw [aux_quote (a ++ ('"' :: '"' :: (b ++ ['"']))) false [] (by simp)]
  show parseCSVLineAux (a ++ ('"' :: '"' :: (b ++ ['"']))) true [] = [a ++ '"' :: b]
  rw [aux_passthrough a ha ('"' :: '"' :: (b ++ ['"'])) []]
  rw [aux_escaped (b ++ ['"']) ([] ++ a)]
  rw [aux_passthrough b hb ['"'] (([] ++ a) ++ ['"'])]
  show parseCSVLineAux ('"' :: []) true ((([] ++ a) ++ ['"']) ++ b) = [a ++ '"' :: b]
  rw [aux_quote [] true ((([] ++ a) ++ ['"']) ++ b) (by simp)]
  show parseCSVLineAux [] false ((([] ++ a) ++ ['"']) ++ b) = [a ++ '"' :: b]
  rw [aux_nil]
  simp

theorem filterMap_if {α β : Type} (q : α → Prop) [DecidablePred q] (f : α → β)
    (l : List α) :
    l.filterMap (fun a => if q a then none else some (f a))
      = (l.filter (fun a => decide (¬ q a))).map f := by
  induction l with
  | nil => rfl
  | cons a rest ih =>
    by_cases hqa : q a <;> simp [List.filterMap_cons, List.filter_cons, hqa, ih]

theorem jsGetKey_setKey_self (row : RowObj) (k v : Str) :
    jsGetKey (jsSetKey row k v) k = some v := by
  unfold jsSetKey jsGetKey
  by_cases hany : row.any (fun p => decide (p.1 = k)) = true
  · rw [if_pos hany, List.find?_map]
    have hkey : ((fun p : Str × Str => decide (p.1 = k)) ∘
        fun p => if p.1 = k then (k, v) else p) = fun p : Str × Str => decide (p.1 = k) :=
      funext fun p => by by_cases hp : p.1 = k <;> simp [hp]
    rw [hkey]
    rcases hfind : row.find? (fun p => decide (p.1 = k)) with _ | p
    · rcases List.any_eq_true.mp hany with ⟨x, hx, hsat⟩
      exact absurd hsat (List.find?_eq_none.mp hfind x hx)
    · have hpk : p.1 = k := by simpa using List.find?_some hfind
      rw [hfind]
      simp [Function.comp, hpk]
  · rw [if_neg hany, List.find?_append]
    have hnone : row.find? (fun p => decide (p.1 = k)) = none :=
      List.find?_eq_none.mpr (fun x hx hsat => hany (List.any_eq_true.mpr ⟨x, hx, hsat⟩))
    rw [hnone]
    simp [List.find?, Option.or]

theorem jsGetKey_setKey_ne (row : RowObj) (k' v k : Str) (hne : ¬ (k' = k)) :
    jsGetKey (jsSetKey row k' v) k = jsGetKey row k := by
  unfold jsSetKey jsGetKey
  by_cases hany : row.any (fun p => decide (p.1 = k')) = true
  · rw [if_pos hany, List.find?_map]
    have hkey : ((fun p : Str × Str => decide (p.1 = k)) ∘
        fun p => if p.1 = k' then (k', v) else p) = fun p : Str × Str => decide (p.1 = k) :=
      funext fun p => by
        by_cases hp : p.1 = k'
        · simp [hp, hne]
        · simp [hp]
    rw [hkey]
    rcases hfind : row.find? (fun p => decide (p.1 = k)) with _ | p
    · rw [hfind]; rfl
    · have hpk : p.1 = k := by simpa using List.find?_some hfind
      have hp' : ¬ (p.1 = k') := by rw [hpk]; exact fun hc => hne hc.symm
      rw [hfind]
      simp [Function.comp, hp']
  · rw [if_neg hany, List.find?_append]
    have hsingle : List.find? (fun p : Str × Str => decide (p.1 = k)) [(k', v)] = none := by
      simp [List.find?, hne]
    rw [hsingle]
    rcases hfind : row.find? (fun p => decide (p.1 = k)) with _ | p <;>
      rw [hfind] <;> rfl

theorem mkRowAux_get_preserved (values : List Str) :
    ∀ (hs : List Str) (i0 : Nat) (row : RowObj) (k : Str),
      (∀ h' ∈ hs, ¬ (jsTrim h' = k)) →
      jsGetKey (mkRowAux values hs i0 row) k = jsGetKey row k := by
  intro hs
  induction hs with
  | nil => intro i0 row k _; rfl
  | cons h0 rest ih =>
    intro i0 row k hdisj
    unfold mkRowAux
    rw [ih (i0 + 1) _ k (fun h' hh => hdisj h' (List.mem_cons_of_mem h0 hh))]
    exact jsGetKey_setKey_ne row (jsTrim h0) _ k (hdisj h0 (List.mem_cons_self h0 rest))

theorem mkRowAux_get (values : List Str) :
    ∀ (hs : List Str) (i0 : Nat) (row : RowObj) (j : Nat) (h : Str),
      hs.get? j = some h → ((hs.map jsTrim).Nodup) →
      jsGetKey (mkRowAux values hs i0 row) (jsTrim h)
        = some (csvValueAt values (i0 + j)) := by
  intro hs
  induction hs with
  | nil => intro i0 row j h hget _; simp at hget
  | cons h0 rest ih =>
    intro i0 row j h hget hnd
    rcases j with _ | j'
    · have hh : h0 = h := by simpa using hget
      subst hh
      unfold mkRowAux
      rw [mkRowAux_get_preserved values rest (i0 + 1) _ (jsTrim h0) ?disj]
      case disj =>
        intro h' hh' hc
        rw [List.map_cons] at hnd
        exact (List.nodup_cons.mp hnd).1 (hc ▸ List.mem_map_of_mem jsTrim hh')
      rw [jsGetKey_setKey_self]
      simp
    · have hget' : rest.get? j' = some h := by simpa using hget
      unfold mkRowAux
      rw [List.map_cons] at hnd
      rw [ih (i0 + 1) _ j' h hget' (List.nodup_cons.mp hnd).2]
      congr 2
      omega

/-- **C8.** For every raw delimited text whose first line is a header row,
`parseCSV` returns one row object per non-blank data line (blank lines are
skipped); `parseCSVLine` reassembles a quote-enclosed field containing the
delimiter and decodes two consecutive quote characters inside a quoted field as
one literal quote; and each row object maps every trimmed header name to the
trimmed field value at the header's index, with the empty string for a missing
trailing field. -/
theorem parseCSV_spec :
    (∀ (text header : Str) (dataLines : List Str),
        splitChar '\n' (jsTrim text) = header :: dataLines →
        parseCSV text
            = (dataLines.filter (fun ln => decide (¬ jsTrim ln = []))).map
                (fun ln => mkRow (parseCSVLine header) (parseCSVLine (jsTrim ln)))
          ∧ (parseCSV text).length
              = (dataLines.filter (fun ln => decide (¬ jsTrim ln = []))).length)
    ∧ (∀ f : Str, '"' ∉ f → parseCSVLine ('"' :: (f ++ ['"'])) = [f])
    ∧ (∀ a b : Str, '"' ∉ a → '"' ∉ b →
        parseCSVLine ('"' :: (a ++ ('"' :: '"' :: (b ++ ['"'])))) = [a ++ '"' :: b])
    ∧ (∀ (headers values : List Str) (j : Nat) (h : Str),
        (headers.map jsTrim).Nodup → headers.get? j = some h →
        jsGetKey (mkRow headers values) (jsTrim h)
          = some (((values.get? j).map jsTrim).getD [])) := by
  refine ⟨?_, parseCSVLine_quoted, parseCSVLine_escaped, ?_⟩
  · intro text header dataLines hsplit
    have hmain : parseCSV text
        = (dataLines.filter (fun ln => decide (¬ jsTrim ln = []))).map
            (fun ln => mkRow (parseCSVLine header) (parseCSVLine (jsTrim ln))) := by
      unfold parseCSV
      rw [hsplit]
      exact filterMap_if (fun ln => jsTrim ln = [])
        (fun ln => mkRow (parseCSVLine header) (parseCSVLine (jsTrim ln))) dataLines
    exact ⟨hmain, by rw [hmain, List.length_map]⟩
  · intro headers values j h hnd hget
    have := mkRowAux_get values headers 0 [] j h hget hnd
    simpa [csvValueAt] using this

/-- Closed instance of C8: a concrete CSV with a quoted delimiter field, a
blank line, a short data row, and an escaped quote. -/
theorem parseCSV_spec_use :
    (parseCSV "A,B\n\"x,y\",2\n\n1".data
        = (["\"x,y\",2".data, "".data, "1".data].filter
              (fun ln => decide (¬ jsTrim ln = []))).map
            (fun ln => mkRow (parseCSVLine "A,B".data) (parseCSVLine (jsTrim ln))))
      ∧ parseCSVLine ('"' :: ("x,y".data ++ ['"'])) = ["x,y".data]
      ∧ parseCSVLine ('"' :: ("he said ".data ++ ('"' :: '"' :: ("hi".data ++ ['"']))))
          = ["he said ".data ++ '"' :: "hi".data]
      ∧ jsGetKey (mkRow ["A".data, " B ".data] ["1".data]) (jsTrim " B ".data)
          = some (((["1".data].get? 1).map jsTrim).getD []) :=
  ⟨(parseCSV_spec.1 "A,B\n\"x,y\",2\n\n1".data "A,B".data
      ["\"x,y\",2".data, "".data, "1".data] (by decide)).1,
    parseCSV_spec.2.1 "x,y".data (by decide),
    parseCSV_spec.2.2.1 "he said ".data "hi".data (by decide) (by decide),
    parseCSV_spec.2.2.2 ["A".data, " B ".data] ["1".data] 1 " B ".data (by decide) (by decide)⟩

theorem jsSub_self_not_neg (q : JsNum) : jsNegative (jsSub q q) = false := by
  cases q <;> simp [jsSub, jsNegative, sub_self]

theorem cmpBefore_eq_key {α : Type} (key : α → JsNum) (x y : α) (h : key y = key x) :
    cmpBefore key y x = false := by
  unfold cmpBefore
  rw [h]
  exact jsSub_self_not_neg (key x)

theorem sortInsert_filter_eq {α : Type} (key : α → JsNum) (q : JsNum) (x : α)
    (hx : key x = q) :
    ∀ l : List α,
      (sortInsert key x l).filter (fun y => decide (key y = q))
        = x :: l.filter (fun y => decide (key y = q)) := by
  intro l
  induction l with
  | nil => simp [sortInsert, hx]
  | cons y ys ih =>
    unfold sortInsert
    by_cases hc : cmpBefore key y x = true
    · rw [if_pos hc]
      have hyq : ¬ (key y = q) := fun hy => by
        rw [cmpBefore_eq_key key x y (hy.trans hx.symm)] at hc
        exact Bool.false_ne_true hc
      simp [List.filter_cons, hyq, ih]
    · rw [if_neg hc]
      simp [List.filter_cons, hx]

theorem sortInsert_filter_ne {α : Type} (key : α → JsNum) (q : JsNum) (x : α)
    (hx : ¬ (key x = q)) :
    ∀ l : List α,
      (sortInsert key x l).filter (fun y => decide (key y = q))
        = l.filter (fun y => decide (key y = q)) := by
  intro l
  induction l with
  | nil => simp [sortInsert, hx]
  | cons y ys ih =>
    unfold sortInsert
    by_cases hc : cmpBefore key y x = true
    · rw [if_pos hc]
      simp [List.filter_cons, ih]
    · rw [if_neg hc]
      simp [List.filter_cons, hx]

theorem jsSortDesc_filter {α : Type} (key : α → JsNum) (q : JsNum) :
    ∀ l : List α,
      (jsSortDesc key l).filter (fun y => decide (key y = q))
        = l.filter (fun y => decide (key y = q)) := by
  intro l
  induction l with
  | nil => rfl
  | cons x xs ih =>
    show (sortInsert key x (jsSortDesc key xs)).filter _ = _
    by_cases hx : key x = q
    · rw [sortInsert_filter_eq key q x hx (jsSortDesc key xs), ih]
      simp [List.filter_cons, hx]
    · rw [sortInsert_filter_ne key q x hx (jsSortDesc key xs), ih]
      simp [List.filter_cons, hx]

theorem addToGroup_map_fst {α : Type} (acc : List (Str × List α)) (k : Str) (r : α) :
    (addToGroup acc k r).map Prod.fst
      = if acc.any (fun p => decide (p.1 = k)) then acc.map Prod.fst
        else acc.map Prod.fst ++ [k] := by
  unfold addToGroup
  split_ifs with h
  · rw [List.map_map]
    have hcomp : (Prod.fst ∘ fun p : Str × List α =>
        if p.1 = k then (p.1, p.2 ++ [r]) else p) = Prod.fst :=
      funext fun p => by by_cases hp : p.1 = k <;> simp [hp]
    rw [hcomp]
  · simp

theorem jsGroupBy_fold_fst {α : Type} (key : α → Str) :
    ∀ (l : List α) (acc : List (Str × List α)),
      (l.foldl (fun a r => addToGroup a (key r) r) acc).map Prod.fst
        = acc.map Prod.fst
            ++ (dedupFirst (l.map key)).filter
                (fun k2 => !decide (k2 ∈ acc.map Prod.fst)) := by
  intro l
  induction l with
  | nil => intro acc; simp [dedupFirst]
  | cons r rest ih =>
    intro acc
    rw [List.foldl_cons, ih (addToGroup acc (key r) r), addToGroup_map_fst]
    rw [List.map_cons]
    rw [show dedupFirst (key r :: rest.map key)
        = key r :: (dedupFirst (rest.map key)).filter
            (fun k2 => !decide (k2 = key r)) from rfl]
    rw [List.filter_cons]
    by_cases h : acc.any (fun p => decide (p.1 = key r)) = true
    · rw [if_pos h]
      have hmem : key r ∈ acc.map Prod.fst := by
        rcases List.any_eq_true.mp h with ⟨p, hp, hpk⟩
        exact (of_decide_eq_true hpk) ▸ List.mem_map_of_mem Prod.fst hp
      rw [if_neg (by simp [hmem])]
      rw [List.filter_filter]
      congr 1
      apply List.filter_congr
      intro k2 _
      by_cases hk2 : k2 ∈ acc.map Prod.fst
      · simp [hk2]
      · have hne : ¬ (k2 = key r) := fun he => hk2 (he ▸ hmem)
        simp [hk2, hne]
    · rw [if_neg h]
      have hmem : ¬ (key r ∈ acc.map Prod.fst) := by
        intro hm
        rcases List.mem_map.mp hm with ⟨p, hp, hpk⟩
        exact h (List.any_eq_true.mpr ⟨p, hp, decide_eq_true hpk⟩)
      rw [if_pos (by simp [hmem])]
      rw [List.filter_filter, List.append_assoc, List.singleton_append]
      congr 2
      apply List.filter_congr
      intro k2 _
      by_cases hk2 : k2 ∈ acc.map Prod.fst <;>
        by_cases hke : k2 = key r <;>
          simp [hk2, hke, List.mem_append, hmem]

theorem jsGroupBy_map_fst {α : Type} (key : α → Str) (l : List α) :
    (jsGroupBy key l).map Prod.fst = dedupFirst (l.map key) := by
  have h := jsGroupBy_fold_fst key l []
  simpa [jsGroupBy] using h

/-- **C9.** When the district and recipient summaries are sorted for display,
entries with equal sort values do not appear in ascending key order: the
ECMAScript sort is stable, so ties keep the insertion order of the `groupBy`
object, which is the order in which each key first appears in the cleaned
data. Formally: filtering the sorted table to any fixed sort value gives
exactly the unsorted grouped rows with that value, in order, and the grouped
keys are the first occurrences of the keys in the input. -/
theorem table_tie_order :
    (∀ (cleanedData : List CleanedRow) (q : JsNum),
        (districtsTableData cleanedData).filter (fun r => decide (r.rawObligations = q))
          = ((jsGroupBy (fun r => r.raw.district) cleanedData).map (fun p =>
              ({ district := p.1
                 contractCount := p.2.length
                 rawObligations := sumByObl p.2
                 totalObligations :=
                   formatCurrency (JsValue.num (sumByObl p.2)) false 1 } : DistrictRow))).filter
              (fun r => decide (r.rawObligations = q)))
      ∧ (∀ (cleanedData : List CleanedRow) (n : Nat),
          (recipientsTableData cleanedData).filter (fun r => decide (r.contractCount = n))
            = ((jsGroupBy (fun r => r.raw.recipient) cleanedData).map (fun p =>
                ({ recipient := p.1
                   contractCount := p.2.length
                   totalObligations :=
                     formatCurrency (JsValue.num (sumByObl p.2)) false 1 } : RecipientRow))).filter
                (fun r => decide (r.contractCount = n)))
      ∧ (∀ (key : CleanedRow → Str) (l : List CleanedRow),
          (jsGroupBy key l).map Prod.fst = dedupFirst (l.map key)) := by
  refine ⟨?_, ?_, fun key l => jsGroupBy_map_fst key l⟩
  · intro cleanedData q
    exact jsSortDesc_filter (fun r : DistrictRow => r.rawObligations) q _
  · intro cleanedData n
    have hpred : (fun r : RecipientRow => decide (r.contractCount = n))
        = (fun r : RecipientRow =>
            decide (JsNum.val (r.contractCount : ℚ) = JsNum.val (n : ℚ))) := by
      funext r
      apply decide_eq_decide.mpr
      constructor
      · intro h; rw [h]
      · intro h
        exact Nat.cast_injective (JsNum.val.inj h)
    rw [hpred]
    exact jsSortDesc_filter (fun r : RecipientRow => JsNum.val (r.contractCount : ℚ))
      (JsNum.val (n : ℚ)) _

/-- Counterexample to C9 as stated: two awards of $5 each, in districts TX-2
then AL-1 and for recipients "ZZ Corp" then "AA Corp". Both summaries tie
(equal total, equal count), and both tables keep the first-appearance order
TX-2 before AL-1 and "ZZ Corp" before "AA Corp", although the keys in
ascending order would be AL-1 first and "AA Corp" first. -/
theorem table_tie_order_cex :
    ((districtsTableData (processData [cexRawTX, cexRawAL])).map (fun r => r.district)
        = ["TX-2".data, "AL-1".data])
      ∧ ((recipientsTableData (processData [cexRawTX, cexRawAL])).map (fun r => r.recipient)
          = ["ZZ Corp".data, "AA Corp".data])
      ∧ strLt "AL-1".data "TX-2".data = true
      ∧ strLt "AA Corp".data "ZZ Corp".data = true := by
  refine ⟨?_, ?_, by decide, by decide⟩
  · with_unfolding_all rfl
  · with_unfolding_all rfl
